import Mathlib

/-!
Shallow embedding of the bar-derivation pipeline of `backend/jobs/derive.py`
(`derive_bars` and its helpers), used to check the natural-language
specification of the repository against the code.

Conventions of the embedding:
* timestamps are modelled as minute indices: whole minutes since the Unix
  epoch, UTC (the pipeline floors every tick timestamp to the minute before
  doing anything else, so minute resolution is exact for every stage);
* prices and derived price statistics are rationals (`ℚ`), standing for the
  decimal values the code manipulates;
* a pandas `NaN` / `pd.NA` entry is modelled as `Option.none`;
* the America/New_York wall clock used by `_label_session` is modelled from
  the tz database rules for the United States from 2007 on (EST = UTC-5h,
  EDT = UTC-4h, daylight time between 02:00 local on the second Sunday of
  March and 02:00 local on the first Sunday of November).
-/

/-! ## Civil calendar and the America/New_York clock -/

/-- Days since 1970-01-01 of the civil date `y-m-d` (proleptic Gregorian,
Howard Hinnant's `days_from_civil` algorithm). -/
def daysFromCivil (y : Int) (m d : Nat) : Int :=
  let y' : Int := if m ≤ 2 then y - 1 else y
  let era : Int := (if 0 ≤ y' then y' else y' - 399).tdiv 400
  let yoe : Int := y' - era * 400
  let mp : Int := if 2 < m then (m : Int) - 3 else (m : Int) + 9
  let doy : Int := (153 * mp + 2).tdiv 5 + (d : Int) - 1
  let doe : Int := yoe * 365 + yoe.tdiv 4 - yoe.tdiv 100 + doy
  era * 146097 + doe - 719468

/-- The civil year containing day `z` (days since 1970-01-01),
Howard Hinnant's `civil_from_days`, kept only up to the year. -/
def civilYearOfDay (z : Int) : Int :=
  let z' : Int := z + 719468
  let era : Int := (if 0 ≤ z' then z' else z' - 146096).tdiv 146097
  let doe : Int := z' - era * 146097
  let yoe : Int := (doe - doe.tdiv 1460 + doe.tdiv 36524 - doe.tdiv 146096).tdiv 365
  let y : Int := yoe + era * 400
  let doy : Int := doe - (365 * yoe + yoe.tdiv 4 - yoe.tdiv 100)
  let mp : Int := (5 * doy + 2).tdiv 153
  let m : Int := if mp < 10 then mp + 3 else mp - 9
  if m ≤ 2 then y + 1 else y

/-- Day-of-week of a day number, `0 = Sunday` (1970-01-01 was a Thursday). -/
def weekdayOfDay (z : Int) : Int := (z + 4).emod 7

/-- Minute index (minutes since the epoch, UTC) of a civil UTC instant. -/
def minutesUTC (y : Int) (m d hh mi : Nat) : Nat :=
  (daysFromCivil y m d * 1440 + (hh : Int) * 60 + (mi : Int)).toNat

/-- First Sunday of month `m` of year `y`, as a day number. -/
def firstSundayOfMonth (y : Int) (m : Nat) : Int :=
  let d0 : Int := daysFromCivil y m 1
  d0 + (7 - weekdayOfDay d0).emod 7

/-- UTC minute at which US daylight saving time starts in year `y`
(second Sunday of March, 02:00 EST = 07:00 UTC). -/
def dstStartMinute (y : Int) : Int :=
  (firstSundayOfMonth y 3 + 7) * 1440 + 7 * 60

/-- UTC minute at which US daylight saving time ends in year `y`
(first Sunday of November, 02:00 EDT = 06:00 UTC). -/
def dstEndMinute (y : Int) : Int :=
  firstSundayOfMonth y 11 * 1440 + 6 * 60

/-- Whether America/New_York is on daylight saving time at UTC minute `t`
(tz database rules, 2007 and later). -/
def isNYDst (t : Nat) : Bool :=
  let y := civilYearOfDay ((t : Int) / 1440)
  dstStartMinute y ≤ (t : Int) && (t : Int) < dstEndMinute y

/-- UTC-offset of the America/New_York wall clock, in minutes. -/
def nyOffsetMinutes (t : Nat) : Int :=
  if isNYDst t then -240 else -300

/-- America/New_York wall-clock time of UTC minute `t`, as local minutes
since the local epoch. -/
def nyLocalMinutes (t : Nat) : Int := (t : Int) + nyOffsetMinutes t

/-- Local minute-of-day (`hour*60 + minute` of the New York wall clock),
as computed by `_label_session` after `tz_convert("America/New_York")`. -/
def nyMinuteOfDay (t : Nat) : Int := (nyLocalMinutes t).emod 1440

/-- New York calendar day (local days since the epoch) of UTC minute `t`. -/
def nyLocalDay (t : Nat) : Int := (nyLocalMinutes t).ediv 1440

/-! ## List helpers (sorted-unique key extraction, max/min, mode) -/

/-- Insert into a sorted `List ℕ`. -/
def insertNat (x : Nat) : List Nat → List Nat
  | [] => [x]
  | y :: ys => if x ≤ y then x :: y :: ys else y :: insertNat x ys

/-- Insertion sort for `List ℕ`. -/
def sortNat (l : List Nat) : List Nat := l.foldr insertNat []

/-- Ascending list of the distinct elements of `l` (the sorted unique key
index that pandas `groupby` / outer-`merge(sort=True)` produce). -/
def sortedKeys (l : List Nat) : List Nat := sortNat l.dedup

/-! ## Data model

`TradeTick` / `QuoteTick`: one row of a tick container file (`ts` in whole
seconds of UTC feed time; the code keeps nanoseconds but only ever uses the
minute floor, which second resolution represents exactly).

`TradeMin` / `QuoteMin`: one per-minute row of the intermediate frames
built by `_derive_trades_minutes` / `_derive_tbbo_minutes` and by the
cross-file `groupby` consolidation in `derive_bars`.

`Bar`: one row of the canonical minute frame `bars_min` (`o h l c vw` are
`Option ℚ`: `none` models a pandas `NaN`/`NA` entry); `LBar` additionally
carries the session label and RTH flag added by `_label_session`. -/

structure TradeTick where
  ts : Nat
  price : ℚ
  size : Nat
  instrumentId : Nat
  deriving Repr, DecidableEq

structure QuoteTick where
  ts : Nat
  bidPx : ℚ
  askPx : ℚ
  instrumentId : Nat
  deriving Repr, DecidableEq

structure TradeMin where
  t : Nat
  o : ℚ
  h : ℚ
  l : ℚ
  c : ℚ
  v : Nat
  n : Nat
  pvs : ℚ
  deriving Repr, DecidableEq

structure QuoteMin where
  t : Nat
  midFirst : ℚ
  midMean : ℚ
  deriving Repr, DecidableEq

structure Bar where
  t : Nat
  o : Option ℚ
  h : Option ℚ
  l : Option ℚ
  c : Option ℚ
  v : Nat
  n : Nat
  vw : Option ℚ
  provider : Option String
  corr : Bool
  deriving Repr, DecidableEq

structure LBar where
  t : Nat
  o : Option ℚ
  h : Option ℚ
  l : Option ℚ
  c : Option ℚ
  v : Nat
  n : Nat
  vw : Option ℚ
  provider : Option String
  corr : Bool
  session : String
  rth : Bool
  deriving Repr, DecidableEq

/-! ## Minute Aggregator (`_derive_trades_minutes`, `_derive_tbbo_minutes`)

One tick file is reduced to per-minute rows: the ticks are filtered to the
instrument id, each timestamp is floored to its minute, and each minute
with at least one tick yields `first/max/min/last price, sum size, count,
sum (price*size)` (trades) or `first mid, mean mid` (quotes).  Minutes
without ticks are dropped (`dropna` after `resample`). -/

/-- First element of a nonempty rational list, `0` as the (unreached)
default for the empty list. -/
def headQ (l : List ℚ) : ℚ := l.headD 0

/-- Last element, same convention. -/
def lastQ (l : List ℚ) : ℚ := l.getLastD 0

/-- Maximum of a nonempty rational list (`0` default, unreached). -/
def maxNeQ (l : List ℚ) : ℚ := (l.max?).getD 0

/-- Minimum of a nonempty rational list. -/
def minNeQ (l : List ℚ) : ℚ := (l.min?).getD 0

/-- Per-minute reduction of one trades file for one instrument. -/
def tradeFileMinutes (ticks : List TradeTick) (iid : Nat) : List TradeMin :=
  let fts := ticks.filter (fun tk => tk.instrumentId = iid)
  (sortedKeys (fts.map (fun tk => tk.ts / 60))).map (fun m =>
    let g := fts.filter (fun tk => tk.ts / 60 = m)
    let prices := g.map (fun tk => tk.price)
    { t := m
      o := headQ prices
      h := maxNeQ prices
      l := minNeQ prices
      c := lastQ prices
      v := (g.map (fun tk => tk.size)).sum
      n := g.length
      pvs := (g.map (fun tk => tk.price * (tk.size : ℚ))).sum })

/-- Per-minute reduction of one TBBO file for one instrument
(`mid = (bid_px + ask_px) / 2`). -/
def quoteFileMinutes (ticks : List QuoteTick) (iid : Nat) : List QuoteMin :=
  let fqs := ticks.filter (fun tk => tk.instrumentId = iid)
  (sortedKeys (fqs.map (fun tk => tk.ts / 60))).map (fun m =>
    let g := fqs.filter (fun tk => tk.ts / 60 = m)
    let mids := g.map (fun tk => (tk.bidPx + tk.askPx) / 2)
    { t := m
      midFirst := headQ mids
      midMean := mids.sum / (mids.length : ℚ) })

/-! ## Cross-file consolidation (`derive_bars`, the `groupby("ts")` steps)

The per-file frames are concatenated in file order and grouped by minute
with the reducers `o: first, h: max, l: min, c: last, v/n/pvs: sum`
(trades) and `mid_first: first, mid_mean: mean` (quotes); `groupby` emits
the groups in ascending key order and keeps concatenation order inside a
group. -/

def consolidateTrades (parts : List TradeMin) : List TradeMin :=
  (sortedKeys (parts.map (fun p => p.t))).map (fun m =>
    let g := parts.filter (fun p => p.t = m)
    { t := m
      o := headQ (g.map (fun p => p.o))
      h := maxNeQ (g.map (fun p => p.h))
      l := minNeQ (g.map (fun p => p.l))
      c := lastQ (g.map (fun p => p.c))
      v := (g.map (fun p => p.v)).sum
      n := (g.map (fun p => p.n)).sum
      pvs := (g.map (fun p => p.pvs)).sum })

def consolidateQuotes (parts : List QuoteMin) : List QuoteMin :=
  (sortedKeys (parts.map (fun p => p.t))).map (fun m =>
    let g := parts.filter (fun p => p.t = m)
    { t := m
      midFirst := headQ (g.map (fun p => p.midFirst))
      midMean := (g.map (fun p => p.midMean)).sum / (g.length : ℚ) })

/-! ## Reconciler (`derive_bars`, outer merge of `trades_min` and
`tbbo_min` followed by the `_choose` / `where` precedence logic)

For every minute of the union of the two key sets (`merge(..., how="outer",
sort=True)`), one row is produced: where the trade row exists with
`v > 0`, OHLC/volume/count come from it and `vw = pvs / v`, provider
`databento_trades`; otherwise OHLC are the quote `mid_first`, `v = n = 0`,
`vw = mid_mean` — all `NA` when no quote row exists for the minute.
The provider column starts as all-`NA`, is set to `databento_trades`
where `has_trades` (`provider.where(~has_trades, other=...)`), and the
final `provider.where(has_trades | mid_first.notna(), other=
"databento_tbbo_fill")` KEEPS the current value where its condition holds:
a quote-fill minute (no trades, mid present) therefore keeps its `NA`
provider, and only the no-trades/no-mid minute is branded
`databento_tbbo_fill`.  Rows are only dropped for a null key
(`dropna(subset=["t"])`), which never fires, so every union minute is
emitted. -/

/-- The row emitted for a minute whose trade volume is zero or absent:
OHLC and vwap are taken from the quote side (and are `NA` when that side
is absent too); the provider stays `NA` when a quote mid exists
(`where` keeps values where `has_trades | mid_first.notna()`) and is
`databento_tbbo_fill` exactly when it does not. -/
def quoteFillRow (m : Nat) (qt : Option QuoteMin) : Bar :=
  { t := m
    o := qt.map (fun q => q.midFirst)
    h := qt.map (fun q => q.midFirst)
    l := qt.map (fun q => q.midFirst)
    c := qt.map (fun q => q.midFirst)
    v := 0, n := 0
    vw := qt.map (fun q => q.midMean)
    provider := match qt with
      | some _ => none
      | none => some "databento_tbbo_fill"
    corr := false }

/-- The row emitted for a minute whose trade row has positive volume. -/
def tradeRow (m : Nat) (p : TradeMin) : Bar :=
  { t := m, o := some p.o, h := some p.h, l := some p.l, c := some p.c
    v := p.v, n := p.n, vw := some (p.pvs / (p.v : ℚ))
    provider := some "databento_trades", corr := false }

/-- The row the reconciler emits for minute `m`. -/
def reconRow (trades : List TradeMin) (quotes : List QuoteMin) (m : Nat) :
    Bar :=
  let qt := quotes.find? (fun p => p.t = m)
  match trades.find? (fun p => p.t = m) with
  | some p => if 0 < p.v then tradeRow m p else quoteFillRow m qt
  | none => quoteFillRow m qt

def reconcile (trades : List TradeMin) (quotes : List QuoteMin) : List Bar :=
  (sortedKeys (trades.map (fun p => p.t) ++ quotes.map (fun p => p.t))).map
    (reconRow trades quotes)

/-! ## Gap Filler (`derive_bars`, the `fill_gaps` branch)

The canonical rows are re-indexed onto the full minute grid from
`from_date 00:00` (or the first bar) to `to_date 23:59` (or the last bar);
`ffc = c.ffill()` is the forward-filled close over that grid, and every
row whose `o` is NA (both grid minutes with no row and degenerate rows) is
overwritten via `DataFrame.update` with
`o=h=l=c=vw=ffc, v=0, n=0, provider="carry_forward", corr=False`.
`update` only replaces with non-NA values, so where `ffc` is still NA
(before the first close) the price fields keep their NA, while `v`, `n`,
`provider` and `corr` are replaced unconditionally. -/

/-- Forward-filled close at grid minute `hi`, over the rows whose minute
lies in `[lo, hi]` (the re-indexed frame only retains rows inside the
grid): the last in-range non-null close in row order. -/
def ffClose (bars : List Bar) (lo hi : Nat) : Option ℚ :=
  bars.foldl
    (fun acc b => if lo ≤ b.t ∧ b.t ≤ hi ∧ b.c.isSome then b.c else acc)
    none

/-- `if p.isSome then p else old` — `DataFrame.update` replacement rule. -/
def updOpt (p old : Option ℚ) : Option ℚ := if p.isSome then p else old

/-- The result of `update` on a row selected as empty (`o` is NA):
price fields become the carried close where it exists, `v`/`n` drop to 0,
and the provider becomes `carry_forward`. -/
def gapUpdate (g : Nat) (p : Option ℚ) (b : Bar) : Bar :=
  { t := g, o := updOpt p b.o, h := updOpt p b.h, l := updOpt p b.l
    c := updOpt p b.c, v := 0, n := 0, vw := updOpt p b.vw
    provider := some "carry_forward", corr := false }

/-- The all-NA row `reindex` creates for a grid minute with no data. -/
def emptyRow (g : Nat) : Bar :=
  { t := g, o := none, h := none, l := none, c := none, v := 0, n := 0
    vw := none, provider := none, corr := false }

/-- The row the gap filler produces for grid minute `g`. -/
def gapRow (bars : List Bar) (startT g : Nat) : Bar :=
  match bars.find? (fun b => b.t = g) with
  | some b =>
    if b.o.isSome then b else gapUpdate g (ffClose bars startT g) b
  | none => gapUpdate g (ffClose bars startT g) (emptyRow g)

/-- `gapFill bars startT stopT`: the carry-forward synthesis over the
minute grid `[startT, stopT]`. -/
def gapFill (bars : List Bar) (startT stopT : Nat) : List Bar :=
  (List.range (stopT + 1 - startT)).map (fun i =>
    gapRow bars startT (startT + i))

/-- `bars_min["t"].min()`. -/
def minT (bars : List Bar) : Nat := ((bars.map (fun b => b.t)).min?).getD 0

/-- `bars_min["t"].max()`. -/
def maxT (bars : List Bar) : Nat := ((bars.map (fun b => b.t)).max?).getD 0

/-! ## Session Labeler (`_label_session`) -/

/-- Session label of a UTC minute: classification of the New York local
minute-of-day by the masks `pre [240, 570)`, `regular [570, 960)`,
`post [960, 1200)` over the default `off`. -/
def sessionOf (t : Nat) : String :=
  let m := nyMinuteOfDay t
  if 240 ≤ m ∧ m < 570 then "pre"
  else if 570 ≤ m ∧ m < 960 then "regular"
  else if 960 ≤ m ∧ m < 1200 then "post"
  else "off"

/-- The `rth` flag: exactly the `regular` mask. -/
def rthOf (t : Nat) : Bool :=
  decide (570 ≤ nyMinuteOfDay t ∧ nyMinuteOfDay t < 960)

/-- `_label_session` applied to one row. -/
def labelSession (b : Bar) : LBar :=
  { t := b.t, o := b.o, h := b.h, l := b.l, c := b.c, v := b.v, n := b.n
    vw := b.vw, provider := b.provider, corr := b.corr
    session := sessionOf b.t, rth := rthOf b.t }

/-! ## Timeframe gate (`derive_bars`, the `tf_map` lookup and the
`tf != "1Min"` resample branch)

`tf_map` is consulted first and an unmapped timeframe raises
`SystemExit`.  For a supported `tf` other than `"1Min"` the code then
runs `bars_min.groupby("bucket", as_index=False).apply(_agg,
include_groups=False)` (line 404), but `_agg` reads `g["bucket"].iloc[0]`
while `include_groups=False` excludes the grouping column from the group
frames: the call raises an unhandled `KeyError: 'bucket'` (a `TypeError`
for the forwarded kwarg on pandas < 2.2) on every invocation, so the
resample never completes and no bucket is ever emitted.  That crash is
modelled at the orchestration level (`deriveMain`); only the `"1Min"`
series below it is ever written. -/

/-- `tf_map = {"1Min": 1, "5Min": 5, "15Min": 15, "1Hour": 60, "1Day": 1440}`
in minutes; `none` for an unsupported timeframe. -/
def tfMinutes (tf : String) : Option Nat :=
  if tf = "1Min" then some 1
  else if tf = "5Min" then some 5
  else if tf = "15Min" then some 15
  else if tf = "1Hour" then some 60
  else if tf = "1Day" then some 1440
  else none

/-! ## The composed bar pipeline

`pipelineBars` is the pure data path of `derive_bars` from the selected
tick files to the 1-minute rows: per-file minute aggregation, cross-file
consolidation, reconciliation, optional gap fill, session labeling,
optional RTH filter.  `fromD` and `toD` are the optional `from_date` /
`to_date` as day numbers.  These rows are what the `tf = "1Min"` branch
writes (the `tf != "1Min"` resample crashes before producing anything and
is modelled in `deriveMain`).  The final `bars[cols].sort_values("t")` is
a stable re-sort of an already sorted frame and adds only constant
columns (`symbol`, `tf`, `adj`, `bar_id`), so it is omitted from the row
model. -/

def pipelineBars (tradeFiles : List (List TradeTick))
    (quoteFiles : List (List QuoteTick)) (iid : Nat)
    (fromD toD : Option Nat) (fillGaps rthOnly : Bool) :
    List LBar :=
  let tmin := consolidateTrades
    (tradeFiles.flatMap (fun f => tradeFileMinutes f iid))
  let qmin := consolidateQuotes
    (quoteFiles.flatMap (fun f => quoteFileMinutes f iid))
  let recon := reconcile tmin qmin
  let gf :=
    if fillGaps ∧ recon ≠ [] then
      gapFill recon
        (match fromD with | some d => d * 1440 | none => minT recon)
        (match toD with | some d => d * 1440 + 1439 | none => maxT recon)
    else recon
  let lab := gf.map labelSession
  if rthOnly then lab.filter (fun b => b.rth) else lab

/-! ## Manifest & Idempotency Engine (`derive_bars` orchestration)

`deriveBars` models the whole entry point as a pure function of an
explicit filesystem state, the call arguments and the wall clock
(`now`, only used for `created_at`), returning the result
(`Except DeriveErr Manifest`) together with the ordered trace of the
I/O effects it performs.  A file's sha256 is modelled by the file's
content itself (`FileData`): the hash function is deterministic and
injective for our purposes, which is all the manifest logic relies on. -/

/-- One row of `_make_bars_stub`. -/
structure StubBarRow where
  ts : Nat
  o : ℚ
  h : ℚ
  l : ℚ
  c : ℚ
  v : Nat
  symbol : String
  deriving Repr, DecidableEq

/-- One row of `_make_tbbo_stub`. -/
structure StubQuoteRow where
  ts : Nat
  bidMean : ℚ
  askMean : ℚ
  spreadMean : ℚ
  symbol : String
  deriving Repr, DecidableEq

/-- Contents of a file on disk (stands in for its byte string, and for its
sha256 in `output_hashes`). -/
inductive FileData where
  | barsRows (rows : List LBar)
  | stubBars (rows : List StubBarRow)
  | stubQuotes (rows : List StubQuoteRow)
  | other (id : Nat)
  deriving Repr, DecidableEq

/-- `_make_bars_stub(symbol, year)`: two deterministic minutes at
`year-01-01T00:00Z` and `year-01-01T00:01Z`. -/
def stubBarsData (sym : String) (yr : Nat) : FileData :=
  FileData.stubBars
    [ { ts := minutesUTC (yr : Int) 1 1 0 0, o := 100, h := 101, l := 199/2
        c := 201/2, v := 1000, symbol := sym }
    , { ts := minutesUTC (yr : Int) 1 1 0 1, o := 101, h := 102, l := 201/2
        c := 203/2, v := 1200, symbol := sym } ]

/-- `_make_tbbo_stub(symbol, year)`. -/
def stubTbboData (sym : String) (yr : Nat) : FileData :=
  FileData.stubQuotes
    [ { ts := minutesUTC (yr : Int) 1 1 0 0, bidMean := 100, askMean := 501/5
        spreadMean := 1/5, symbol := sym }
    , { ts := minutesUTC (yr : Int) 1 1 0 1, bidMean := 101, askMean := 506/5
        spreadMean := 1/5, symbol := sym } ]

/-- The persisted derivation manifest (`bars_manifest.json`).
`createdAt` carries `datetime.now(timezone.utc)`. -/
structure Manifest where
  datasetId : String
  symbol : String
  interval : String
  fromDate : String
  toDate : String
  rebarInterval : String
  inputHashes : List (String × Nat)
  outputHashes : List (String × FileData)
  calendarVersion : String
  tz : String
  createdAt : Nat
  deriving Repr, DecidableEq

/-- One I/O effect of a `derive_bars` run. -/
inductive Ev where
  | readTrades (i : Nat)
  | readTbbo (i : Nat)
  | writeFile (name : String) (data : FileData)
  | writeManifestFile (m : Manifest)
  deriving Repr, DecidableEq

/-- A tick container file of the per-stream directory layout: the date
parsed from its name by `_parse_date_from_filename` (`none` when the
pattern does not match) and its records. -/
structure TickFile (α : Type) where
  date : Option (Nat × Nat × Nat)
  ticks : List α
  deriving Repr

/-- The filesystem as `derive_bars` observes it.  `manifestFile` is
`none` when `bars_manifest.json` is absent, `some none` when present but
unparseable, `some (some m)` when it loads as `m`.  `newTradesFiles` /
`newTbboFiles` are already in sorted filename order (`sorted(glob(...))`). -/
structure FsState where
  tradesDirExists : Bool
  tbboDirExists : Bool
  oldTrades : Option (List TradeTick)
  oldTbbo : Option (List QuoteTick)
  newTradesFiles : List (TickFile TradeTick)
  newTbboFiles : List (TickFile QuoteTick)
  stubBarsFile : Option FileData
  stubTbboFile : Option FileData
  manifestFile : Option (Option Manifest)
  symbologyId : Option Nat

/-- The arguments of `derive_bars` (dates as `(y, m, d)` triples). -/
structure DeriveInput where
  symbol : String
  year : Nat
  force : Bool
  fromDate : Option (Nat × Nat × Nat)
  toDate : Option (Nat × Nat × Nat)
  tf : String
  outFormat : String
  fillGaps : Bool
  rthOnly : Bool

/-- The distinguishable fatal outcomes: the `raise SystemExit(...)` sites,
plus `keyErrorBucket`, the unhandled `KeyError: 'bucket'` (pandas < 2.2: a
`TypeError`) that escapes the `tf != "1Min"` resample at
`groupby("bucket").apply(_agg, include_groups=False)`. -/
inductive DeriveErr where
  | noTradesFiles
  | symbologyMissing
  | noTradesData
  | unsupportedTf
  | keyErrorBucket
  | unsupportedOutputFormat
  deriving Repr, DecidableEq

/-- `YYYYMMDD` of a date triple (the code compares the 8-digit strings,
which agrees with numeric comparison). -/
def ymdNum (d : Nat × Nat × Nat) : Nat := d.1 * 10000 + d.2.1 * 100 + d.2.2

/-- Day number (days since the epoch) of a date triple. -/
def dayNum (d : Nat × Nat × Nat) : Nat :=
  (daysFromCivil (d.1 : Int) d.2.1 d.2.2).toNat

/-- `_in_window`: keep a file whose filename date parses, falls in the
requested year, and respects the optional `from_date` / `to_date`. -/
def inWindow (year : Nat) (fromD toD : Option (Nat × Nat × Nat))
    (fd : Option (Nat × Nat × Nat)) : Bool :=
  match fd with
  | none => false
  | some d =>
    d.1 = year
    && (match fromD with | some f => ymdNum f ≤ ymdNum d | none => true)
    && (match toD with | some g => ymdNum d ≤ ymdNum g | none => true)

/-- `civil_from_days` (full): the civil date of a day number. -/
def civilFromDays (z : Int) : Int × Nat × Nat :=
  let z' : Int := z + 719468
  let era : Int := (if 0 ≤ z' then z' else z' - 146096).tdiv 146097
  let doe : Int := z' - era * 146097
  let yoe : Int := (doe - doe.tdiv 1460 + doe.tdiv 36524 - doe.tdiv 146096).tdiv 365
  let y : Int := yoe + era * 400
  let doy : Int := doe - (365 * yoe + yoe.tdiv 4 - yoe.tdiv 100)
  let mp : Int := (5 * doy + 2).tdiv 153
  let d : Nat := (doy - (153 * mp + 2).tdiv 5 + 1).toNat
  let m : Nat := (if mp < 10 then mp + 3 else mp - 9).toNat
  (if m ≤ 2 then y + 1 else y, m, d)

/-- Two-digit zero padding. -/
def pad2 (n : Nat) : String := if n < 10 then "0" ++ toString n else toString n

/-- `strftime("%Y-%m-%d")` of the day containing UTC minute `t`. -/
def dateStrOfMinute (t : Nat) : String :=
  let c := civilFromDays ((t : Int).ediv 1440)
  let y := c.1
  let mo := pad2 c.2.1
  let dy := pad2 c.2.2
  s!"{y}-{mo}-{dy}"

/-- `tf_norm = tf.replace("Min","m").replace("Hour","h").replace("Day","d").lower()`. -/
def tfNorm (tf : String) : String :=
  (((tf.replace "Min" "m").replace "Hour" "h").replace "Day" "d").toLower

/-- The manifest the stub branch writes and returns. -/
def stubManifest (inp : DeriveInput) (now : Nat)
    (barsData tbboData : FileData) : Manifest :=
  let sym := inp.symbol
  let yr := inp.year
  { datasetId := s!"{sym}-{yr}-1m"
    symbol := sym
    interval := "1m"
    fromDate := s!"{yr}-01-01"
    toDate := s!"{yr}-12-31"
    rebarInterval := "1m"
    inputHashes := []
    outputHashes :=
      [ ("bars_1m.parquet", barsData), ("tbbo_1m.parquet", tbboData) ]
    calendarVersion := "NAZDAQ-v1"
    tz := "America/New_York"
    createdAt := now }

/-- The manifest the tick path builds after writing the bar file. -/
def mainManifest (inp : DeriveInput) (now : Nat) (outName : String)
    (bars : List LBar) (nTrades nTbbo : Nat) : Manifest :=
  let sym := inp.symbol
  let yr := inp.year
  let tfn := tfNorm inp.tf
  { datasetId := s!"{sym}-{yr}-{tfn}"
    symbol := sym
    interval := tfn
    fromDate :=
      match (bars.map (fun b => b.t)).min? with
      | some t0 => dateStrOfMinute t0
      | none => s!"{yr}-01-01"
    toDate :=
      match (bars.map (fun b => b.t)).max? with
      | some t1 => dateStrOfMinute t1
      | none => s!"{yr}-12-31"
    rebarInterval := inp.tf
    inputHashes := [("trades_files", nTrades), ("tbbo_files", nTbbo)]
    outputHashes := [(outName, FileData.barsRows bars)]
    calendarVersion := "NAZDAQ-v1"
    tz := "America/New_York"
    createdAt := now }

/-- The trades files `derive_bars` will read: the window-filtered sorted
per-stream directory listing, or the single old-layout file. -/
def selectTradeFiles (st : FsState) (inp : DeriveInput) :
    List (List TradeTick) :=
  if st.tradesDirExists ∧ st.tbboDirExists then
    ((st.newTradesFiles.filter
      (fun f => inWindow inp.year inp.fromDate inp.toDate f.date)).map
        (fun f => f.ticks))
  else [st.oldTrades.getD []]

/-- The TBBO files `derive_bars` will read. -/
def selectTbboFiles (st : FsState) (inp : DeriveInput) :
    List (List QuoteTick) :=
  if st.tradesDirExists ∧ st.tbboDirExists then
    ((st.newTbboFiles.filter
      (fun f => inWindow inp.year inp.fromDate inp.toDate f.date)).map
        (fun f => f.ticks))
  else [st.oldTbbo.getD []]

/-- The no-tick-data stub branch of `derive_bars`: write the fixed
two-row stub files (unless present and not forced), then write and return
a fresh stub manifest. -/
def stubBranch (st : FsState) (inp : DeriveInput) (now : Nat) :
    Except DeriveErr Manifest × List Ev :=
  let doBars := inp.force ∨ st.stubBarsFile = none
  let doTbbo := inp.force ∨ st.stubTbboFile = none
  let barsData :=
    if doBars then stubBarsData inp.symbol inp.year
    else st.stubBarsFile.getD (FileData.other 0)
  let tbboData :=
    if doTbbo then stubTbboData inp.symbol inp.year
    else st.stubTbboFile.getD (FileData.other 0)
  let man := stubManifest inp now barsData tbboData
  (Except.ok man,
    (if doBars then [Ev.writeFile "bars_1m.parquet" barsData] else [])
    ++ (if doTbbo then [Ev.writeFile "tbbo_1m.parquet" tbboData] else [])
    ++ [Ev.writeManifestFile man])

/-- The tick-data path of `derive_bars`: select files, validate, read and
aggregate; for `tf = "1Min"` run the pipeline, write the bar file, then
consult the manifest — for any other supported timeframe the resample
raises its unhandled `KeyError` after the reads, before the format check
and before anything is written. -/
def deriveMain (st : FsState) (inp : DeriveInput) (now : Nat) :
    Except DeriveErr Manifest × List Ev :=
  let tradesSel := selectTradeFiles st inp
  let tbboSel := selectTbboFiles st inp
  if tradesSel.isEmpty then (Except.error DeriveErr.noTradesFiles, [])
  else
    match st.symbologyId with
    | none => (Except.error DeriveErr.symbologyMissing, [])
    | some iid =>
      let readTr := (List.range tradesSel.length).map Ev.readTrades
      let parts := tradesSel.flatMap (fun f => tradeFileMinutes f iid)
      if parts.isEmpty then (Except.error DeriveErr.noTradesData, readTr)
      else
        let readTb := (List.range tbboSel.length).map Ev.readTbbo
        match tfMinutes inp.tf with
        | none => (Except.error DeriveErr.unsupportedTf, readTr ++ readTb)
        | some _ =>
          if inp.tf = "1Min" then
            let bars := pipelineBars tradesSel tbboSel iid
              (inp.fromDate.map dayNum) (inp.toDate.map dayNum)
              inp.fillGaps inp.rthOnly
            if inp.outFormat = "parquet" ∨ inp.outFormat = "csv"
                ∨ inp.outFormat = "jsonl" then
              let tf := inp.tf
              let fmt := inp.outFormat
              let outName :=
                if inp.outFormat = "parquet" then s!"bars_{tf}.parquet"
                else s!"bars_{tf}.{fmt}"
              let wr := Ev.writeFile outName (FileData.barsRows bars)
              let man := mainManifest inp now outName bars
                tradesSel.length tbboSel.length
              match inp.force, st.manifestFile with
              | false, some (some old) =>
                (Except.ok old, readTr ++ readTb ++ [wr])
              | false, some none =>
                (Except.ok man,
                  readTr ++ readTb ++ [wr, Ev.writeManifestFile man])
              | false, none =>
                (Except.ok man,
                  readTr ++ readTb ++ [wr, Ev.writeManifestFile man])
              | true, _ =>
                (Except.ok man,
                  readTr ++ readTb ++ [wr, Ev.writeManifestFile man])
            else (Except.error DeriveErr.unsupportedOutputFormat,
              readTr ++ readTb)
          else
            -- `_agg` reads `g["bucket"]`, excluded by `include_groups=False`:
            -- the resample raises before the format check and all writes.
            (Except.error DeriveErr.keyErrorBucket, readTr ++ readTb)

/-- `derive_bars`: the full entry point, returning the result and the
ordered I/O trace. -/
def deriveBars (st : FsState) (inp : DeriveInput) (now : Nat) :
    Except DeriveErr Manifest × List Ev :=
  if ¬ (st.tradesDirExists ∧ st.tbboDirExists)
      ∧ (st.oldTrades = none ∨ st.oldTbbo = none) then
    stubBranch st inp now
  else deriveMain st inp now

instance : Std.Antisymm (fun (x y : ℚ) => x ≤ y) :=
  ⟨fun h h' => le_antisymm h h'⟩

/-! ## Concrete rows and states used by witnesses and counterexamples -/

/-- A trade tick during regular hours: 2024-01-05 14:30 UTC (09:30 New
York), price 100, size 10, instrument 7. -/
def c10Tick : TradeTick := ⟨minutesUTC 2024 1 5 14 30 * 60, 100, 10, 7⟩

/-- The bar the pipeline derives from `c10Tick`. -/
def c10Row : LBar :=
  ⟨minutesUTC 2024 1 5 14 30, some 100, some 100, some 100, some 100, 10, 1,
    some 100, some "databento_trades", false, "regular", true⟩

/-- Projection of a labeled bar onto its canonical-row fields. -/
def LBar.core (b : LBar) : Bar :=
  ⟨b.t, b.o, b.h, b.l, b.c, b.v, b.n, b.vw, b.provider, b.corr⟩

/-- The OHLC invariant with all four price fields present:
`low ≤ open ≤ high` and `low ≤ close ≤ high`. -/
def barBounded (b : Bar) : Prop :=
  ∃ oq hq lq cq, b.o = some oq ∧ b.h = some hq ∧ b.l = some lq
    ∧ b.c = some cq ∧ lq ≤ oq ∧ oq ≤ hq ∧ lq ≤ cq ∧ cq ≤ hq

/-- A canonical row is either fully priced and bounded, or fully null. -/
def barWf (b : Bar) : Prop :=
  barBounded b ∨ (b.o = none ∧ b.h = none ∧ b.l = none ∧ b.c = none)

/-- Shape invariant of 1-minute canonical rows: well-formed, and positive
volume forces the priced, bounded form. -/
def barGood (b : Bar) : Prop := barWf b ∧ (0 < b.v → barBounded b)

/-- The OHLC invariant of a (consolidated) trade-minute row. -/
def tmInv (p : TradeMin) : Prop :=
  p.l ≤ p.o ∧ p.o ≤ p.h ∧ p.l ≤ p.c ∧ p.c ≤ p.h

/-- A trade of size 5 at price 100 in minute 600. -/
def c7Tick1 : TradeTick := ⟨600 * 60, 100, 5, 7⟩

/-- A zero-size trade at price 200 in minute 630, yielding a degenerate
zero-volume minute beside the real one. -/
def c7Tick2 : TradeTick := ⟨630 * 60, 200, 0, 7⟩

/-- A small trade used by the idempotency example. -/
def c1Tick : TradeTick := ⟨600 * 60, 100, 2, 7⟩

/-- A manifest already persisted at the target path. -/
def c1OldManifest : Manifest :=
  ⟨"old-dataset", "AAPL", "1m", "2024-01-01", "2024-12-31", "1m", [], [],
    "NAZDAQ-v1", "America/New_York", 5⟩

/-- Filesystem with the per-stream layout, one trades file dated inside
2024, a loadable manifest, and symbology resolving to instrument 7. -/
def c1State : FsState :=
  { tradesDirExists := true, tbboDirExists := true
    oldTrades := none, oldTbbo := none
    newTradesFiles := [⟨some (2024, 1, 5), [c1Tick]⟩]
    newTbboFiles := []
    stubBarsFile := none, stubTbboFile := none
    manifestFile := some (some c1OldManifest)
    symbologyId := some 7 }

/-- `derive("AAPL", 2024)` with all defaults (`force = false`). -/
def c1Input : DeriveInput :=
  { symbol := "AAPL", year := 2024, force := false, fromDate := none
    toDate := none, tf := "1Min", outFormat := "parquet", fillGaps := false
    rthOnly := false }

/-- A small trade used by the unsupported-option examples. -/
def c8Tick : TradeTick := ⟨600 * 60, 100, 3, 7⟩

/-- Filesystem with the per-stream layout and one trades file, no
manifest. -/
def c8State : FsState :=
  { tradesDirExists := true, tbboDirExists := true
    oldTrades := none, oldTbbo := none
    newTradesFiles := [⟨some (2024, 1, 5), [c8Tick]⟩]
    newTbboFiles := []
    stubBarsFile := none, stubTbboFile := none
    manifestFile := none
    symbologyId := some 7 }

/-- A call with the unsupported timeframe `2Min`. -/
def c8Input : DeriveInput :=
  { symbol := "AAPL", year := 2024, force := false, fromDate := none
    toDate := none, tf := "2Min", outFormat := "parquet", fillGaps := false
    rthOnly := false }

/-- A call with a valid timeframe but the unsupported format `feather`. -/
def c8InputFmt : DeriveInput :=
  { symbol := "AAPL", year := 2024, force := false, fromDate := none
    toDate := none, tf := "1Min", outFormat := "feather", fillGaps := false
    rthOnly := false }

/-- Filesystem with no raw tick layout at all; the stub bars file already
exists (with arbitrary content), the stub TBBO file does not. -/
def c9State : FsState :=
  { tradesDirExists := false, tbboDirExists := false
    oldTrades := none, oldTbbo := none
    newTradesFiles := [], newTbboFiles := []
    stubBarsFile := some (FileData.other 3), stubTbboFile := none
    manifestFile := none
    symbologyId := none }

/-- `derive("AAPL", 2023)` with all defaults. -/
def c9Input : DeriveInput :=
  { symbol := "AAPL", year := 2023, force := false, fromDate := none
    toDate := none, tf := "1Min", outFormat := "parquet", fillGaps := false
    rthOnly := false }

/-- Filesystem with the per-stream layout and one trades file holding
`c7Tick1` and `c7Tick2`; no manifest. -/
def c7State : FsState :=
  { tradesDirExists := true, tbboDirExists := true
    oldTrades := none, oldTbbo := none
    newTradesFiles := [⟨some (2024, 1, 5), [c7Tick1, c7Tick2]⟩]
    newTbboFiles := []
    stubBarsFile := none, stubTbboFile := none
    manifestFile := none
    symbologyId := some 7 }

/-- `derive("AAPL", 2024, timeframe="1Min")` with all defaults. -/
def c7Input : DeriveInput :=
  { symbol := "AAPL", year := 2024, force := false, fromDate := none
    toDate := none, tf := "1Min", outFormat := "parquet", fillGaps := false
    rthOnly := false }

/-- A call at the `1Day` timeframe. -/
def c4Input : DeriveInput :=
  { symbol := "AAPL", year := 2024, force := false, fromDate := none
    toDate := none, tf := "1Day", outFormat := "parquet", fillGaps := false
    rthOnly := false }

/-- A call at the `1Hour` timeframe. -/
def c6Input : DeriveInput :=
  { symbol := "AAPL", year := 2024, force := false, fromDate := none
    toDate := none, tf := "1Hour", outFormat := "parquet", fillGaps := false
    rthOnly := false }

/-- Filesystem with the per-stream layout and one trades file holding the
RTH tick `c10Tick`; no manifest. -/
def c10State : FsState :=
  { tradesDirExists := true, tbboDirExists := true
    oldTrades := none, oldTbbo := none
    newTradesFiles := [⟨some (2024, 1, 5), [c10Tick]⟩]
    newTbboFiles := []
    stubBarsFile := none, stubTbboFile := none
    manifestFile := none
    symbologyId := some 7 }

/-- A `1Min` call with `rth_only = true`. -/
def c10InputRth : DeriveInput :=
  { symbol := "AAPL", year := 2024, force := false, fromDate := none
    toDate := none, tf := "1Min", outFormat := "parquet", fillGaps := false
    rthOnly := true }

/-- A `5Min` call with `rth_only = true`. -/
def c10Input5 : DeriveInput :=
  { symbol := "AAPL", year := 2024, force := false, fromDate := none
    toDate := none, tf := "5Min", outFormat := "parquet", fillGaps := false
    rthOnly := true }

/-! ## Shared helper lemmas -/

theorem insertNat_mem (x : Nat) (l : List Nat) (z : Nat) :
    z ∈ insertNat x l ↔ z = x ∨ z ∈ l := by
  induction l with
  | nil => simp [insertNat]
  | cons y ys ih =>
    by_cases h : x ≤ y
    · simp [insertNat, h]
    · simp only [insertNat, if_neg h, List.mem_cons, ih]
      tauto

theorem sortNat_mem (l : List Nat) (z : Nat) : z ∈ sortNat l ↔ z ∈ l := by
  induction l with
  | nil => simp [sortNat]
  | cons y ys ih =>
    simp only [sortNat, List.foldr_cons] at *
    rw [insertNat_mem]
    simp [ih]

theorem sortedKeys_mem (l : List Nat) (z : Nat) :
    z ∈ sortedKeys l ↔ z ∈ l := by
  rw [sortedKeys, sortNat_mem, List.mem_dedup]

theorem headD_mem {α : Type} {l : List α} (d : α) (h : l ≠ []) :
    l.headD d ∈ l := by
  cases l with
  | nil => exact absurd rfl h
  | cons x xs => simp

theorem getLastD_mem {α : Type} {l : List α} (d : α) (h : l ≠ []) :
    l.getLastD d ∈ l := by
  rw [List.getLastD_eq_getLast?, List.getLast?_eq_getLast l h]
  simp only [Option.getD_some]
  exact List.getLast_mem h

/-- `rth` implies the `regular` label (the masks agree). -/
theorem rthOf_imp_regular (t : Nat) (h : rthOf t = true) :
    sessionOf t = "regular" := by
  unfold rthOf at h
  have h' := of_decide_eq_true h
  unfold sessionOf
  have h240 : ¬ (240 ≤ nyMinuteOfDay t ∧ nyMinuteOfDay t < 570) := by omega
  rw [if_neg h240, if_pos h']

/-! ## Claim theorems -/

/-- Claim C5: session labeling is a pure function of the bar's timestamp
converted to America/New_York wall-clock time — local minute-of-day in
`[04:00, 09:30)` is `pre`, `[09:30, 16:00)` is `regular` with
`is_rth = true`, `[16:00, 20:00)` is `post`, everything else `off`; a bar
at exactly 09:30 New York time on 2024-03-10 (the DST-transition day,
13:30 UTC) is `regular`/`is_rth`, and one at 09:29 local is `pre`. -/
theorem session_labeling_spec (b : Bar) :
    ((labelSession b).session = "pre"
      ↔ (240 ≤ nyMinuteOfDay b.t ∧ nyMinuteOfDay b.t < 570))
    ∧ ((labelSession b).session = "regular"
      ↔ (570 ≤ nyMinuteOfDay b.t ∧ nyMinuteOfDay b.t < 960))
    ∧ ((labelSession b).session = "post"
      ↔ (960 ≤ nyMinuteOfDay b.t ∧ nyMinuteOfDay b.t < 1200))
    ∧ ((labelSession b).session = "off"
      ↔ (nyMinuteOfDay b.t < 240 ∨ 1200 ≤ nyMinuteOfDay b.t))
    ∧ ((labelSession b).rth = true ↔ (labelSession b).session = "regular")
    ∧ sessionOf (minutesUTC 2024 3 10 13 30) = "regular"
    ∧ rthOf (minutesUTC 2024 3 10 13 30) = true
    ∧ sessionOf (minutesUTC 2024 3 10 13 29) = "pre" := by
  have hs : (labelSession b).session = sessionOf b.t := rfl
  have hr : (labelSession b).rth = rthOf b.t := rfl
  rw [hs, hr]
  unfold sessionOf rthOf
  refine ⟨?_, ?_, ?_, ?_, ?_, by decide, by decide, by decide⟩ <;>
  · generalize nyMinuteOfDay b.t = m
    dsimp only
    split_ifs with h1 h2 h3 <;> simp_all <;> omega

/-- Rows surviving the RTH filter after labeling are labeled `regular`. -/
theorem filtered_labeled_regular (gf : List Bar) (x : LBar)
    (hx : x ∈ (gf.map labelSession).filter (fun b => b.rth)) :
    x.session = "regular" ∧ x.rth = true := by
  rw [List.mem_filter] at hx
  obtain ⟨hx1, hx2⟩ := hx
  obtain ⟨y, hy, hxy⟩ := List.mem_map.mp hx1
  subst hxy
  exact ⟨rthOf_imp_regular y.t hx2, hx2⟩

theorem insertNat_nodup (x : Nat) (l : List Nat) (hx : x ∉ l)
    (hl : l.Nodup) : (insertNat x l).Nodup := by
  induction l with
  | nil => simp [insertNat]
  | cons y ys ih =>
    rw [List.nodup_cons] at hl
    by_cases h : x ≤ y
    · rw [insertNat, if_pos h, List.nodup_cons, List.nodup_cons]
      refine ⟨fun hc => hx ?_, hl⟩
      simpa using hc
    · rw [insertNat, if_neg h, List.nodup_cons]
      have hxys : x ∉ ys := fun hc => hx (List.mem_cons_of_mem _ hc)
      have hxy : x ≠ y := fun hc => hx (by rw [hc]; exact List.mem_cons_self _ _)
      refine ⟨fun hc => ?_, ih hxys hl.2⟩
      rcases (insertNat_mem x ys y).mp hc with hc1 | hc1
      · exact hxy hc1.symm
      · exact hl.1 hc1

theorem sortNat_nodup (l : List Nat) (hl : l.Nodup) : (sortNat l).Nodup := by
  induction l with
  | nil => simp [sortNat]
  | cons y ys ih =>
    rw [List.nodup_cons] at hl
    rw [sortNat, List.foldr_cons]
    exact insertNat_nodup y (sortNat ys)
      (fun hc => hl.1 ((sortNat_mem ys y).mp hc)) (ih hl.2)

theorem sortedKeys_nodup (l : List Nat) : (sortedKeys l).Nodup :=
  sortNat_nodup l.dedup (List.nodup_dedup l)

theorem find?_of_nodup_key {α : Type} (f : α → Nat) (xs : List α)
    (hnd : (xs.map f).Nodup) (x : α) (hx : x ∈ xs) (m : Nat)
    (hm : f x = m) : xs.find? (fun y => f y = m) = some x := by
  induction xs with
  | nil => cases hx
  | cons a as ih =>
    rw [List.map_cons, List.nodup_cons] at hnd
    rcases List.mem_cons.mp hx with h1 | hxas
    · subst h1
      rw [List.find?_cons_of_pos]
      simpa using hm
    · have hfa : ¬ (f a = m) := by
        intro h
        apply hnd.1
        rw [h, ← hm]
        exact List.mem_map_of_mem f hxas
      rw [List.find?_cons_of_neg]
      · exact ih hnd.2 hxas
      · simpa using hfa

theorem filter_key_single {α : Type} (f : α → Nat) (xs : List α)
    (hnd : (xs.map f).Nodup) (x : α) (hx : x ∈ xs) (m : Nat)
    (hm : f x = m) : xs.filter (fun y => f y = m) = [x] := by
  induction xs with
  | nil => cases hx
  | cons a as ih =>
    rw [List.map_cons, List.nodup_cons] at hnd
    rcases List.mem_cons.mp hx with h1 | hxas
    · subst h1
      rw [List.filter_cons_of_pos (by simpa using hm)]
      have : as.filter (fun y => f y = m) = [] := by
        rw [List.filter_eq_nil_iff]
        intro y hy hc
        apply hnd.1
        have hym : f y = m := by simpa using hc
        rw [hm, ← hym]
        exact List.mem_map_of_mem f hy
      rw [this]
    · have hfa : ¬ (f a = m) := by
        intro h
        apply hnd.1
        rw [h, ← hm]
        exact List.mem_map_of_mem f hxas
      rw [List.filter_cons_of_neg (by simpa using hfa)]
      exact ih hnd.2 hxas

/-- `find?` by the minute key, for trade-minute rows. -/
theorem find?_tradeMin (trades : List TradeMin)
    (hnd : (trades.map (fun p => p.t)).Nodup) (p : TradeMin)
    (hp : p ∈ trades) (m : Nat) (hm : p.t = m) :
    trades.find? (fun q => q.t = m) = some p :=
  find?_of_nodup_key (fun q => q.t) trades hnd p hp m hm

/-- `find?` by the minute key, for quote-minute rows. -/
theorem find?_quoteMin (quotes : List QuoteMin)
    (hnd : (quotes.map (fun p => p.t)).Nodup) (q : QuoteMin)
    (hq : q ∈ quotes) (m : Nat) (hm : q.t = m) :
    quotes.find? (fun r => r.t = m) = some q :=
  find?_of_nodup_key (fun r => r.t) quotes hnd q hq m hm

/-- Singleton filter over a duplicate-free key list. -/
theorem filter_eq_single_nat (xs : List Nat) (hnd : xs.Nodup) (m : Nat)
    (hm : m ∈ xs) : xs.filter (fun y => y = m) = [m] := by
  have h := filter_key_single (fun y => y) xs (by simpa using hnd) m hm m rfl
  exact h

/-- The reconciler's row for minute `m` carries timestamp `m`. -/
theorem reconRow_t (trades : List TradeMin) (quotes : List QuoteMin)
    (m : Nat) : (reconRow trades quotes m).t = m := by
  unfold reconRow
  cases trades.find? (fun p => p.t = m) with
  | none => rfl
  | some p =>
    dsimp only
    split_ifs <;> rfl

/-- Counterexample to claim C2 as stated: (i) a minute whose consolidated
trade row has `v = 0` (all its trades had size 0) and for which no quote
mid exists is **not** dropped — the reconciler still emits one row for it,
with null OHLC and null vwap, and (because the final provider `where`
keeps values exactly where `has_trades | mid_first.notna()` holds) that
degenerate row is the one carrying provider `databento_tbbo_fill`;
(ii) the true quote-fill minute's provider stays null, not
`databento_tbbo_fill` as claimed. -/
theorem reconcile_zero_volume_minute_emitted_cex :
    reconcile [⟨600, 100, 100, 100, 100, 0, 1, 0⟩] [⟨601, 50, 51⟩]
      = [⟨600, none, none, none, none, 0, 0, none,
          some "databento_tbbo_fill", false⟩,
         ⟨601, some 50, some 50, some 50, some 50, 0, 0, some 51,
          none, false⟩]
    ∧ reconcile [⟨600, 100, 100, 100, 100, 0, 1, 0⟩] [⟨601, 50, 51⟩] ≠ []
    ∧ (reconcile [⟨600, 100, 100, 100, 100, 0, 1, 0⟩] [⟨601, 50, 51⟩]).map
        (fun r => r.provider)
      = [some "databento_tbbo_fill", none] := by
  refine ⟨by decide, by decide, by decide⟩

/-- Claim C2, amended: for every minute of the union of the consolidated
trade-minute and quote-minute keys, the reconciler emits exactly one row,
chosen by precedence — trade rows with positive volume win (OHLC, `v`,
`n` from the trade row, `vwap = pvs / v`, provider `databento_trades`),
else an available quote mid yields the flat quote-fill row with `v = 0`,
`vwap = mid_mean` and a **null** provider (the `where` that was meant to
brand it keeps existing values where its condition holds); a minute whose
trade row has zero volume and no quote mid is **still emitted**
(amendment), as the degenerate `quoteFillRow m none` with null OHLC/vwap
and provider `databento_tbbo_fill`. -/
theorem reconcile_precedence (trades : List TradeMin)
    (quotes : List QuoteMin)
    (ht : (trades.map (fun p => p.t)).Nodup)
    (hq : (quotes.map (fun p => p.t)).Nodup)
    (m : Nat)
    (hm : m ∈ trades.map (fun p => p.t) ∨ m ∈ quotes.map (fun p => p.t)) :
    (reconcile trades quotes).filter (fun r => r.t = m)
        = [reconRow trades quotes m]
    ∧ (∀ p ∈ trades, p.t = m → 0 < p.v →
        reconRow trades quotes m = tradeRow m p)
    ∧ (∀ p ∈ trades, p.t = m → p.v = 0 → ∀ q ∈ quotes, q.t = m →
        reconRow trades quotes m = quoteFillRow m (some q))
    ∧ ((∀ p ∈ trades, p.t ≠ m) → ∀ q ∈ quotes, q.t = m →
        reconRow trades quotes m = quoteFillRow m (some q))
    ∧ (∀ p ∈ trades, p.t = m → p.v = 0 → (∀ q ∈ quotes, q.t ≠ m) →
        reconRow trades quotes m = quoteFillRow m none) := by
  refine ⟨?_, ?_, ?_, ?_, ?_⟩
  · -- exactly one row for the minute
    unfold reconcile
    rw [List.filter_map]
    have hpred : ((fun r : Bar => decide (r.t = m))
        ∘ reconRow trades quotes) = (fun m' => decide (m' = m)) := by
      funext m'
      simp [Function.comp, reconRow_t]
    rw [hpred]
    have hmk : m ∈ sortedKeys
        (trades.map (fun p => p.t) ++ quotes.map (fun p => p.t)) :=
      (sortedKeys_mem _ _).mpr (List.mem_append.mpr hm)
    rw [filter_eq_single_nat _ (sortedKeys_nodup _) m hmk]
    rfl
  · intro p hp hpt hpv
    unfold reconRow
    rw [find?_tradeMin trades ht p hp m hpt]
    dsimp only
    rw [if_pos hpv]
  · intro p hp hpt hpv q hqm hqt
    unfold reconRow
    rw [find?_tradeMin trades ht p hp m hpt,
      find?_quoteMin quotes hq q hqm m hqt]
    dsimp only
    rw [if_neg (by omega)]
  · intro hnone q hqm hqt
    unfold reconRow
    have htr : trades.find? (fun p => p.t = m) = none :=
      List.find?_eq_none.mpr (fun p hp => by simpa using hnone p hp)
    rw [htr, find?_quoteMin quotes hq q hqm m hqt]
  · intro p hp hpt hpv hqnone
    unfold reconRow
    have hqn : quotes.find? (fun r => r.t = m) = none :=
      List.find?_eq_none.mpr (fun r hr => by simpa using hqnone r hr)
    rw [find?_tradeMin trades ht p hp m hpt, hqn]
    dsimp only
    rw [if_neg (by omega)]

/-- Concrete instance of `reconcile_precedence`: one trade minute with
volume 5 and one quote minute. -/
theorem reconcile_precedence_witness :
    (([⟨600, 100, 101, 99, 100, 5, 2, 500⟩] : List TradeMin).map
      (fun p => p.t)).Nodup
    ∧ (([⟨600, 50, 51⟩] : List QuoteMin).map (fun p => p.t)).Nodup
    ∧ ((600 : Nat) ∈ ([⟨600, 100, 101, 99, 100, 5, 2, 500⟩]
        : List TradeMin).map (fun p => p.t)
      ∨ (600 : Nat) ∈ ([⟨600, 50, 51⟩] : List QuoteMin).map (fun p => p.t))
    ∧ (reconcile [⟨600, 100, 101, 99, 100, 5, 2, 500⟩]
        [⟨600, 50, 51⟩]).filter (fun r => r.t = 600)
        = [reconRow [⟨600, 100, 101, 99, 100, 5, 2, 500⟩] [⟨600, 50, 51⟩] 600]
    ∧ reconRow [⟨600, 100, 101, 99, 100, 5, 2, 500⟩] [⟨600, 50, 51⟩] 600
        = tradeRow 600 ⟨600, 100, 101, 99, 100, 5, 2, 500⟩ := by
  have h := reconcile_precedence [⟨600, 100, 101, 99, 100, 5, 2, 500⟩]
    [⟨600, 50, 51⟩] (by decide) (by decide) 600 (Or.inl (by decide))
  exact ⟨by decide, by decide, Or.inl (by decide), h.1,
    h.2.1 ⟨600, 100, 101, 99, 100, 5, 2, 500⟩ (by decide) rfl (by decide)⟩

theorem ffClose_eq_none (bars : List Bar) (lo hi : Nat) :
    ffClose bars lo hi = none
      ↔ ∀ b ∈ bars, lo ≤ b.t → b.t ≤ hi → b.c = none := by
  induction bars using List.reverseRecOn with
  | nil => simp [ffClose]
  | append_singleton bs b ih =>
    rw [ffClose, List.foldl_append]
    simp only [List.foldl_cons, List.foldl_nil]
    split_ifs with hc
    · constructor
      · intro habs
        rw [habs] at hc
        exact absurd hc.2.2 (by simp)
      · intro hall
        have := hall b (List.mem_append.mpr (Or.inr (List.mem_singleton_self b)))
          hc.1 hc.2.1
        rw [this] at hc
        exact absurd hc.2.2 (by simp)
    · rw [show List.foldl
        (fun acc c => if lo ≤ c.t ∧ c.t ≤ hi ∧ c.c.isSome then c.c else acc)
        none bs = ffClose bs lo hi from rfl, ih]
      constructor
      · intro hall x hx hx1 hx2
        rcases List.mem_append.mp hx with h1 | h1
        · exact hall x h1 hx1 hx2
        · rw [List.mem_singleton] at h1
          subst h1
          cases hxc : x.c with
          | none => rfl
          | some q => exact absurd ⟨hx1, hx2, by rw [hxc]; rfl⟩ hc
      · intro hall x hx hx1 hx2
        exact hall x (List.mem_append.mpr (Or.inl hx)) hx1 hx2

theorem ffClose_eq_some (bars : List Bar) (lo hi : Nat)
    (hp : bars.Pairwise (fun a b => a.t < b.t)) (p : ℚ) :
    ffClose bars lo hi = some p ↔
      ∃ b ∈ bars, lo ≤ b.t ∧ b.t ≤ hi ∧ b.c = some p ∧
        ∀ b' ∈ bars, lo ≤ b'.t → b'.t ≤ hi → b'.c.isSome → b'.t ≤ b.t := by
  induction bars using List.reverseRecOn with
  | nil => simp [ffClose]
  | append_singleton bs b ih =>
    have hsplit := List.pairwise_append.mp hp
    have hpbs := hsplit.1
    have hlt : ∀ x ∈ bs, x.t < b.t := fun x hx =>
      hsplit.2.2 x hx b (List.mem_singleton_self b)
    rw [ffClose, List.foldl_append]
    simp only [List.foldl_cons, List.foldl_nil]
    split_ifs with hc
    · constructor
      · intro h
        refine ⟨b, List.mem_append.mpr (Or.inr (List.mem_singleton_self b)),
          hc.1, hc.2.1, h, ?_⟩
        intro b' hb' _ _ _
        rcases List.mem_append.mp hb' with h4 | h4
        · exact le_of_lt (hlt b' h4)
        · rw [List.mem_singleton] at h4
          subst h4
          exact le_refl _
      · rintro ⟨b0, hb0, h1, h2, h3, hmax⟩
        rcases List.mem_append.mp hb0 with h4 | h4
        · have hble : b.t ≤ b0.t :=
            hmax b (List.mem_append.mpr (Or.inr (List.mem_singleton_self b)))
              hc.1 hc.2.1 hc.2.2
          exact absurd (hlt b0 h4) (by omega)
        · rw [List.mem_singleton] at h4
          subst h4
          exact h3
    · rw [show List.foldl
        (fun acc c => if lo ≤ c.t ∧ c.t ≤ hi ∧ c.c.isSome then c.c else acc)
        none bs = ffClose bs lo hi from rfl, ih hpbs]
      constructor
      · rintro ⟨b0, hb0, h1, h2, h3, hmax⟩
        refine ⟨b0, List.mem_append.mpr (Or.inl hb0), h1, h2, h3, ?_⟩
        intro b' hb' g1 g2 g3
        rcases List.mem_append.mp hb' with h4 | h4
        · exact hmax b' h4 g1 g2 g3
        · rw [List.mem_singleton] at h4
          subst h4
          exact absurd ⟨g1, g2, g3⟩ hc
      · rintro ⟨b0, hb0, h1, h2, h3, hmax⟩
        rcases List.mem_append.mp hb0 with h4 | h4
        · refine ⟨b0, h4, h1, h2, h3, ?_⟩
          intro b' hb' g1 g2 g3
          exact hmax b' (List.mem_append.mpr (Or.inl hb')) g1 g2 g3
        · rw [List.mem_singleton] at h4
          subst h4
          exact absurd ⟨h1, h2, by rw [h3]; rfl⟩ hc

/-- The gap filler's row for grid minute `g` carries timestamp `g`. -/
theorem gapRow_t (bars : List Bar) (s g : Nat) : (gapRow bars s g).t = g := by
  unfold gapRow
  cases hf : bars.find? (fun b => b.t = g) with
  | none => rfl
  | some b =>
    have hbt : b.t = g := by simpa using List.find?_some hf
    dsimp only
    split_ifs with ho
    · exact hbt
    · rfl

/-- Counterexample to claim C3 as stated: with a grid starting at minute 0
(`from_date` given) and the first real bar at minute 2, the grid minutes
0 and 1 — which precede the first observation and have no close to carry —
are **not** absent from the output: they are emitted as rows with null
OHLC/vwap, `v = n = 0` and `provider = carry_forward`. -/
theorem gap_fill_leading_minutes_emitted_cex :
    gapFill
      [⟨2, some 10, some 10, some 10, some 10, 5, 1, some 10,
        some "databento_trades", false⟩] 0 3
      = [ ⟨0, none, none, none, none, 0, 0, none, some "carry_forward", false⟩
        , ⟨1, none, none, none, none, 0, 0, none, some "carry_forward", false⟩
        , ⟨2, some 10, some 10, some 10, some 10, 5, 1, some 10,
            some "databento_trades", false⟩
        , ⟨3, some 10, some 10, some 10, some 10, 0, 0, some 10,
            some "carry_forward", false⟩ ]
    ∧ ∃ b ∈ gapFill
        [⟨2, some 10, some 10, some 10, some 10, 5, 1, some 10,
          some "databento_trades", false⟩] 0 3,
        b.t = 0 ∧ b.o = none ∧ b.provider = some "carry_forward" := by
  constructor
  · decide
  · decide

/-- Claim C3, amended: for every grid minute `g` of `[startT, stopT]`,
`gapFill` emits exactly one row — a real bar (non-null open) at `g` is
kept unchanged; an empty minute with a carried close `p` (the most recent
non-null in-grid close at or before `g`, characterized below) becomes the
flat synthetic bar `o=h=l=c=vwap=p, v=0, n=0, provider=carry_forward`;
and (amendment) an empty minute **before the first close** is still
emitted, with null prices but `v=0, n=0, provider=carry_forward`, rather
than being left absent. -/
theorem gap_fill_carry_forward (bars : List Bar) (startT stopT g : Nat)
    (hp : bars.Pairwise (fun a b => a.t < b.t))
    (hwf : ∀ b ∈ bars, b.o = none →
      b.h = none ∧ b.l = none ∧ b.c = none ∧ b.vw = none)
    (hg1 : startT ≤ g) (hg2 : g ≤ stopT) :
    (gapFill bars startT stopT).filter (fun b => b.t = g)
        = [gapRow bars startT g]
    ∧ (∀ b ∈ bars, b.t = g → b.o.isSome → gapRow bars startT g = b)
    ∧ (∀ p : ℚ, (∀ b ∈ bars, b.t = g → b.o = none) →
        ffClose bars startT g = some p →
        gapRow bars startT g =
          ⟨g, some p, some p, some p, some p, 0, 0, some p,
            some "carry_forward", false⟩)
    ∧ (∀ p : ℚ, ffClose bars startT g = some p ↔
        ∃ b ∈ bars, startT ≤ b.t ∧ b.t ≤ g ∧ b.c = some p ∧
          ∀ b' ∈ bars, startT ≤ b'.t → b'.t ≤ g → b'.c.isSome →
            b'.t ≤ b.t)
    ∧ ((∀ b ∈ bars, b.t = g → b.o = none) → ffClose bars startT g = none →
        gapRow bars startT g =
          ⟨g, none, none, none, none, 0, 0, none, some "carry_forward",
            false⟩) := by
  have hnd : (bars.map (fun b => b.t)).Nodup := by
    have := List.Pairwise.map (fun b : Bar => b.t)
      (fun a b (h : a.t < b.t) => h) hp
    exact this.imp (fun h => Nat.ne_of_lt h)
  refine ⟨?_, ?_, ?_, fun p => ffClose_eq_some bars startT g hp p, ?_⟩
  · -- exactly one row for the minute
    unfold gapFill
    rw [List.filter_map]
    have hpred : ((fun b : Bar => decide (b.t = g))
        ∘ (fun i => gapRow bars startT (startT + i)))
        = (fun i => decide (i = g - startT)) := by
      funext i
      simp only [Function.comp, gapRow_t]
      by_cases h : startT + i = g
      · have h2 : i = g - startT := by omega
        subst h2
        simp [h]
      · have h2 : ¬ (i = g - startT) := by omega
        simp [h, h2]
    rw [hpred]
    have hmem : g - startT ∈ List.range (stopT + 1 - startT) := by
      rw [List.mem_range]
      omega
    rw [filter_eq_single_nat _ (List.nodup_range _) _ hmem]
    simp only [List.map_cons, List.map_nil]
    congr 2
    omega
  · intro b hb hbt hbo
    unfold gapRow
    rw [find?_of_nodup_key (fun b => b.t) bars hnd b hb g hbt]
    dsimp only
    rw [if_pos hbo]
  · intro p hempty hff
    unfold gapRow
    cases hf : bars.find? (fun b => b.t = g) with
    | none =>
      rw [hff]
      rfl
    | some b =>
      have hbt : b.t = g := by simpa using List.find?_some hf
      have hbo : b.o = none :=
        hempty b (List.mem_of_find?_eq_some hf) hbt
      dsimp only
      rw [if_neg (by rw [hbo]; simp), hff]
      rfl
  · intro hempty hff
    unfold gapRow
    cases hf : bars.find? (fun b => b.t = g) with
    | none =>
      rw [hff]
      rfl
    | some b =>
      have hbt : b.t = g := by simpa using List.find?_some hf
      have hbmem := List.mem_of_find?_eq_some hf
      have hbo : b.o = none := hempty b hbmem hbt
      obtain ⟨hh, hl, hc, hvw⟩ := hwf b hbmem hbo
      dsimp only
      rw [if_neg (by rw [hbo]; simp), hff]
      unfold gapUpdate updOpt
      simp [hbo, hh, hl, hc, hvw]

/-- Concrete instance of `gap_fill_carry_forward`: grid `[0, 3]`, one real
bar at minute 2, carried forward into minute 3. -/
theorem gap_fill_carry_forward_witness :
    (gapFill
        [⟨2, some 10, some 10, some 10, some 10, 5, 1, some 10,
          some "databento_trades", false⟩] 0 3).filter (fun b => b.t = 3)
      = [gapRow
          [⟨2, some 10, some 10, some 10, some 10, 5, 1, some 10,
            some "databento_trades", false⟩] 0 3]
    ∧ gapRow
        [⟨2, some 10, some 10, some 10, some 10, 5, 1, some 10,
          some "databento_trades", false⟩] 0 3
      = ⟨3, some 10, some 10, some 10, some 10, 0, 0, some 10,
          some "carry_forward", false⟩ := by
  have h := gap_fill_carry_forward
    [⟨2, some 10, some 10, some 10, some 10, 5, 1, some 10,
      some "databento_trades", false⟩] 0 3 3
    (by decide) (by decide) (by decide) (by decide)
  exact ⟨h.1, h.2.2.1 10 (by decide) (by decide)⟩

theorem le_maxNeQ (l : List ℚ) (x : ℚ) (hx : x ∈ l) : x ≤ maxNeQ l := by
  cases hM : l.max? with
  | none =>
    rw [List.max?_eq_none_iff] at hM
    subst hM
    cases hx
  | some M =>
    have h := (List.max?_eq_some_iff (fun _ => le_refl _)
      (fun _ _ => max_choice _ _) (fun _ _ _ => max_le_iff)).mp hM
    unfold maxNeQ
    rw [hM]
    exact h.2 x hx

theorem minNeQ_le (l : List ℚ) (x : ℚ) (hx : x ∈ l) : minNeQ l ≤ x := by
  cases hM : l.min? with
  | none =>
    rw [List.min?_eq_none_iff] at hM
    subst hM
    cases hx
  | some M =>
    have h := (List.min?_eq_some_iff (fun _ => le_refl _)
      (fun _ _ => min_choice _ _) (fun _ _ _ => le_min_iff)).mp hM
    unfold minNeQ
    rw [hM]
    exact h.2 x hx

/-- Per-file trade-minute rows satisfy the OHLC invariant: open and close
are prices seen in the minute, high is the max, low the min. -/
theorem tradeFileMinutes_inv (f : List TradeTick) (iid : Nat) :
    ∀ p ∈ tradeFileMinutes f iid, tmInv p := by
  intro p hp
  unfold tradeFileMinutes at hp
  obtain ⟨m, hm, hrow⟩ := List.mem_map.mp hp
  obtain hmem := (sortedKeys_mem _ _).mp hm
  obtain ⟨tk, htk, htkm⟩ := List.mem_map.mp hmem
  have hg : tk ∈ (f.filter (fun tk => tk.instrumentId = iid)).filter
      (fun tk => tk.ts / 60 = m) :=
    List.mem_filter.mpr ⟨htk, by simpa using htkm⟩
  have hne : ((f.filter (fun tk => tk.instrumentId = iid)).filter
      (fun tk => tk.ts / 60 = m)).map (fun tk => tk.price) ≠ [] := by
    intro h0
    rw [List.map_eq_nil_iff] at h0
    rw [h0] at hg
    cases hg
  have ho := headD_mem (0 : ℚ) hne
  have hc := getLastD_mem (0 : ℚ) hne
  rw [← hrow]
  exact ⟨minNeQ_le _ _ ho, le_maxNeQ _ _ ho, minNeQ_le _ _ hc,
    le_maxNeQ _ _ hc⟩

/-- Cross-file consolidation preserves the trade-minute OHLC invariant. -/
theorem consolidateTrades_inv (parts : List TradeMin)
    (hinv : ∀ p ∈ parts, tmInv p) :
    ∀ r ∈ consolidateTrades parts, tmInv r := by
  intro r hr
  unfold consolidateTrades at hr
  obtain ⟨m, hm, hrow⟩ := List.mem_map.mp hr
  obtain hmem := (sortedKeys_mem _ _).mp hm
  obtain ⟨p0, hp0, hp0m⟩ := List.mem_map.mp hmem
  have hg0 : p0 ∈ parts.filter (fun p => p.t = m) :=
    List.mem_filter.mpr ⟨hp0, by simpa using hp0m⟩
  have hone : (parts.filter (fun p => p.t = m)).map (fun p => p.o) ≠ [] := by
    intro h0
    rw [List.map_eq_nil_iff] at h0
    rw [h0] at hg0
    cases hg0
  have hcne : (parts.filter (fun p => p.t = m)).map (fun p => p.c) ≠ [] := by
    intro h0
    rw [List.map_eq_nil_iff] at h0
    rw [h0] at hg0
    cases hg0
  obtain ⟨po, hpo, hpoe⟩ := List.mem_map.mp (headD_mem (0 : ℚ) hone)
  obtain ⟨pc, hpc, hpce⟩ := List.mem_map.mp (getLastD_mem (0 : ℚ) hcne)
  have hinvo := hinv po (List.mem_filter.mp hpo).1
  have hinvc := hinv pc (List.mem_filter.mp hpc).1
  rw [← hrow]
  refine ⟨?_, ?_, ?_, ?_⟩
  · calc minNeQ ((parts.filter (fun p => p.t = m)).map (fun p => p.l))
        ≤ po.l := minNeQ_le _ _ (List.mem_map_of_mem _ hpo)
      _ ≤ po.o := hinvo.1
      _ = _ := hpoe
  · calc headQ ((parts.filter (fun p => p.t = m)).map (fun p => p.o))
        = po.o := hpoe.symm
      _ ≤ po.h := hinvo.2.1
      _ ≤ maxNeQ ((parts.filter (fun p => p.t = m)).map (fun p => p.h)) :=
        le_maxNeQ _ _ (List.mem_map_of_mem _ hpo)
  · calc minNeQ ((parts.filter (fun p => p.t = m)).map (fun p => p.l))
        ≤ pc.l := minNeQ_le _ _ (List.mem_map_of_mem _ hpc)
      _ ≤ pc.c := hinvc.2.2.1
      _ = _ := hpce
  · calc lastQ ((parts.filter (fun p => p.t = m)).map (fun p => p.c))
        = pc.c := hpce.symm
      _ ≤ pc.h := hinvc.2.2.2
      _ ≤ maxNeQ ((parts.filter (fun p => p.t = m)).map (fun p => p.h)) :=
        le_maxNeQ _ _ (List.mem_map_of_mem _ hpc)

/-- The quote-fill row is always well-formed: flat (bounded) when a quote
exists, fully null otherwise; its volume is zero. -/
theorem quoteFillRow_good (m : Nat) (qt : Option QuoteMin) :
    barGood (quoteFillRow m qt) := by
  cases qt with
  | none =>
    exact ⟨Or.inr ⟨rfl, rfl, rfl, rfl⟩, fun h => absurd h (lt_irrefl 0)⟩
  | some q =>
    refine ⟨Or.inl ⟨q.midFirst, q.midFirst, q.midFirst, q.midFirst,
      rfl, rfl, rfl, rfl, le_refl _, le_refl _, le_refl _, le_refl _⟩,
      fun h => absurd h (lt_irrefl 0)⟩

/-- Every reconciled row is well-formed, and positive volume implies the
full OHLC invariant (the trade row inherits it from consolidation). -/
theorem reconcile_good (tm : List TradeMin) (qm : List QuoteMin)
    (hinv : ∀ p ∈ tm, tmInv p) :
    ∀ b ∈ reconcile tm qm, barGood b := by
  intro b hb
  unfold reconcile at hb
  obtain ⟨m, _, hrow⟩ := List.mem_map.mp hb
  rw [← hrow]
  unfold reconRow
  cases hf : tm.find? (fun p => p.t = m) with
  | none => exact quoteFillRow_good m _
  | some p =>
    dsimp only
    split_ifs with hv
    · have hp := hinv p (List.mem_of_find?_eq_some hf)
      have hbd : barBounded (tradeRow m p) :=
        ⟨p.o, p.h, p.l, p.c, rfl, rfl, rfl, rfl,
          hp.1, hp.2.1, hp.2.2.1, hp.2.2.2⟩
      exact ⟨Or.inl hbd, fun _ => hbd⟩
    · exact quoteFillRow_good m _

/-- Every gap-update row is well-formed with zero volume. -/
theorem gapUpdate_good (g : Nat) (p : Option ℚ) (b : Bar)
    (hb : p = none → b.o = none ∧ b.h = none ∧ b.l = none ∧ b.c = none) :
    barGood (gapUpdate g p b) := by
  cases p with
  | some q =>
    refine ⟨Or.inl ⟨q, q, q, q, rfl, rfl, rfl, rfl,
      le_refl _, le_refl _, le_refl _, le_refl _⟩,
      fun h => absurd h (lt_irrefl 0)⟩
  | none =>
    obtain ⟨h1, h2, h3, h4⟩ := hb rfl
    refine ⟨Or.inr ⟨?_, ?_, ?_, ?_⟩, fun h => absurd h (lt_irrefl 0)⟩ <;>
      simp [gapUpdate, updOpt, h1, h2, h3, h4]

/-- Gap filling preserves row well-formedness. -/
theorem gapFill_good (bars : List Bar) (s e : Nat)
    (hg : ∀ b ∈ bars, barGood b) :
    ∀ r ∈ gapFill bars s e, barGood r := by
  intro r hr
  unfold gapFill at hr
  obtain ⟨i, _, hrow⟩ := List.mem_map.mp hr
  rw [← hrow]
  unfold gapRow
  cases hf : bars.find? (fun b => b.t = s + i) with
  | none => exact gapUpdate_good _ _ _ (fun _ => ⟨rfl, rfl, rfl, rfl⟩)
  | some b =>
    dsimp only
    split_ifs with ho
    · exact hg b (List.mem_of_find?_eq_some hf)
    · refine gapUpdate_good _ _ _ (fun _ => ?_)
      have hbg := hg b (List.mem_of_find?_eq_some hf)
      have hnone : b.o = none := Option.not_isSome_iff_eq_none.mp ho
      rcases hbg.1 with hbd | hn
      · obtain ⟨oq, _, _, _, ho1, _⟩ := hbd
        rw [hnone] at ho1
        cases ho1
      · exact ⟨hnone, hn.2.1, hn.2.2.1, hn.2.2.2⟩

/-- Counterexample to claim C1 as stated: with a loadable manifest already
at the target path and `force = false`, the previously-written manifest is
returned — but the derivation pipeline still re-runs: the trace shows the
tick file being read and the output bar file being rewritten before the
manifest check at the end of `derive_bars`. -/
theorem manifest_reuse_still_rewrites_bars_cex :
    (deriveBars c1State c1Input 99).1 = Except.ok c1OldManifest
    ∧ (deriveBars c1State c1Input 99).2
        = [Ev.readTrades 0,
           Ev.writeFile "bars_1Min.parquet" (FileData.barsRows
             (pipelineBars [[c1Tick]] [] 7 none none false false))]
    ∧ Ev.readTrades 0 ∈ (deriveBars c1State c1Input 99).2
    ∧ ∃ rows, Ev.writeFile "bars_1Min.parquet" (FileData.barsRows rows)
        ∈ (deriveBars c1State c1Input 99).2 := by
  have htr : (deriveBars c1State c1Input 99).2
      = [Ev.readTrades 0,
         Ev.writeFile "bars_1Min.parquet" (FileData.barsRows
           (pipelineBars [[c1Tick]] [] 7 none none false false))] := rfl
  refine ⟨rfl, htr, ?_, ?_⟩
  · rw [htr]
    exact List.mem_cons_self _ _
  · refine ⟨pipelineBars [[c1Tick]] [] 7 none none false false, ?_⟩
    rw [htr]
    exact List.mem_cons_of_mem _ (List.mem_singleton.mpr rfl)

/-- Claim C1, amended: on the tick-data path, at the only timeframe whose
derivation completes (`1Min` — every other supported timeframe dies in the
resample before the manifest logic), a loadable manifest with
`force = false` is returned as-is and no manifest is (re)written — but the
call is not cheap: the pipeline re-runs and the output bar file is
rewritten whenever the call succeeds. -/
theorem existing_manifest_returned_but_pipeline_reruns
    (st : FsState) (inp : DeriveInput) (now : Nat) (old : Manifest)
    (h1 : st.tradesDirExists = true) (h2 : st.tbboDirExists = true)
    (hm : st.manifestFile = some (some old)) (hf : inp.force = false)
    (htf : inp.tf = "1Min") :
    (∀ mf, Ev.writeManifestFile mf ∉ (deriveBars st inp now).2)
    ∧ (∀ x, (deriveBars st inp now).1 = Except.ok x →
        x = old
        ∧ ∃ nm rows, Ev.writeFile nm (FileData.barsRows rows)
            ∈ (deriveBars st inp now).2) := by
  have hmain : deriveBars st inp now = deriveMain st inp now := by
    unfold deriveBars
    rw [if_neg]
    intro hcnd
    exact hcnd.1 ⟨h1, h2⟩
  rw [hmain]
  unfold deriveMain
  by_cases hts : (selectTradeFiles st inp).isEmpty = true
  · rw [if_pos hts]
    exact ⟨fun mf h => List.not_mem_nil _ h, fun x hx => Except.noConfusion hx⟩
  · rw [if_neg hts]
    cases hsym : st.symbologyId with
    | none =>
      dsimp only
      exact ⟨fun mf h => List.not_mem_nil _ h,
        fun x hx => Except.noConfusion hx⟩
    | some iid =>
      dsimp only
      by_cases hparts : ((selectTradeFiles st inp).flatMap
          (fun f => tradeFileMinutes f iid)).isEmpty = true
      · rw [if_pos hparts]
        refine ⟨fun mf h => ?_, fun x hx => Except.noConfusion hx⟩
        obtain ⟨i, _, he⟩ := List.mem_map.mp h
        cases he
      · rw [if_neg hparts]
        cases htf2 : tfMinutes inp.tf with
        | none =>
          dsimp only
          refine ⟨fun mf h => ?_, fun x hx => Except.noConfusion hx⟩
          rcases List.mem_append.mp h with h | h <;>
          · obtain ⟨i, _, he⟩ := List.mem_map.mp h
            cases he
        | some k =>
          dsimp only
          rw [if_pos htf]
          by_cases hfmt : (inp.outFormat = "parquet" ∨ inp.outFormat = "csv"
              ∨ inp.outFormat = "jsonl")
          · rw [if_pos hfmt, hf, hm]
            dsimp only
            refine ⟨fun mf h => ?_, fun x hx => ?_⟩
            · rcases List.mem_append.mp h with h | h
              · rcases List.mem_append.mp h with h | h <;>
                · obtain ⟨i, _, he⟩ := List.mem_map.mp h
                  cases he
              · rw [List.mem_singleton] at h
                cases h
            · constructor
              · injection hx with h
                exact h.symm
              · exact ⟨_, _,
                  List.mem_append.mpr (Or.inr (List.mem_singleton.mpr rfl))⟩
          · rw [if_neg hfmt]
            refine ⟨fun mf h => ?_, fun x hx => Except.noConfusion hx⟩
            rcases List.mem_append.mp h with h | h <;>
            · obtain ⟨i, _, he⟩ := List.mem_map.mp h
              cases he

/-- Concrete instance of `existing_manifest_returned_but_pipeline_reruns`
on `c1State`/`c1Input`. -/
theorem existing_manifest_returned_but_pipeline_reruns_witness :
    c1State.tradesDirExists = true ∧ c1State.tbboDirExists = true
    ∧ c1State.manifestFile = some (some c1OldManifest)
    ∧ c1Input.force = false
    ∧ c1Input.tf = "1Min"
    ∧ (∀ mf, Ev.writeManifestFile mf ∉ (deriveBars c1State c1Input 99).2)
    ∧ (∀ x, (deriveBars c1State c1Input 99).1 = Except.ok x →
        x = c1OldManifest
        ∧ ∃ nm rows, Ev.writeFile nm (FileData.barsRows rows)
            ∈ (deriveBars c1State c1Input 99).2) := by
  have h := existing_manifest_returned_but_pipeline_reruns c1State c1Input
    99 c1OldManifest rfl rfl rfl rfl rfl
  exact ⟨rfl, rfl, rfl, rfl, rfl, h.1, h.2⟩

/-- Counterexample to claim C8 as stated: with tick data present and
`tf = "2Min"` (unsupported), the error is raised only AFTER the trade
file has been read — the trace contains `readTrades 0`; likewise an
unsupported output format errors after the reads. -/
theorem unsupported_tf_after_read_cex :
    deriveBars c8State c8Input 99
      = (Except.error DeriveErr.unsupportedTf, [Ev.readTrades 0])
    ∧ Ev.readTrades 0 ∈ (deriveBars c8State c8Input 99).2
    ∧ deriveBars c8State c8InputFmt 99
      = (Except.error DeriveErr.unsupportedOutputFormat, [Ev.readTrades 0]) := by
  refine ⟨rfl, ?_, rfl⟩
  rw [show (deriveBars c8State c8Input 99).2 = [Ev.readTrades 0] from rfl]
  exact List.mem_singleton.mpr rfl

/-- Claim C8, amended: an unsupported timeframe yields `UnsupportedTf`
and — at `tf = "1Min"`, the only timeframe that ever reaches the format
check — an unsupported output format yields `UnsupportedOutputFormat`;
in both cases nothing is written, but the error is not raised before any
I/O: every selected trade and TBBO file has already been read, because
both checks sit after the read loops.  A supported timeframe other than
`1Min` instead dies in the resample (`keyErrorBucket`) before the format
check, also after the reads. -/
theorem unsupported_options_raise_after_reads
    (st : FsState) (inp : DeriveInput) (now : Nat) (iid : Nat)
    (hsym : st.symbologyId = some iid)
    (hne : (selectTradeFiles st inp).isEmpty = false)
    (hdata : ((selectTradeFiles st inp).flatMap
        (fun f => tradeFileMinutes f iid)).isEmpty = false)
    (hdir : (st.tradesDirExists = true ∧ st.tbboDirExists = true)
        ∨ ¬ (st.oldTrades = none ∨ st.oldTbbo = none)) :
    (tfMinutes inp.tf = none →
      deriveBars st inp now = (Except.error DeriveErr.unsupportedTf,
        (List.range (selectTradeFiles st inp).length).map Ev.readTrades
        ++ (List.range (selectTbboFiles st inp).length).map Ev.readTbbo))
    ∧ (inp.tf = "1Min" →
        ¬ (inp.outFormat = "parquet" ∨ inp.outFormat = "csv"
            ∨ inp.outFormat = "jsonl") →
        deriveBars st inp now
          = (Except.error DeriveErr.unsupportedOutputFormat,
            (List.range (selectTradeFiles st inp).length).map Ev.readTrades
            ++ (List.range (selectTbboFiles st inp).length).map
              Ev.readTbbo))
    ∧ (∀ k, tfMinutes inp.tf = some k → inp.tf ≠ "1Min" →
        deriveBars st inp now
          = (Except.error DeriveErr.keyErrorBucket,
            (List.range (selectTradeFiles st inp).length).map Ev.readTrades
            ++ (List.range (selectTbboFiles st inp).length).map
              Ev.readTbbo)) := by
  have hmain : deriveBars st inp now = deriveMain st inp now := by
    unfold deriveBars
    rw [if_neg]
    intro hcnd
    rcases hdir with hd | hd
    · exact hcnd.1 hd
    · exact hd hcnd.2
  rw [hmain]
  unfold deriveMain
  rw [if_neg (by simp [hne]), hsym]
  dsimp only
  rw [if_neg (by simp [hdata])]
  refine ⟨?_, ?_, ?_⟩
  · intro htf
    rw [htf]
  · intro h1m hfmt
    rw [h1m]
    rw [show tfMinutes "1Min" = some 1 from rfl]
    dsimp only
    rw [if_pos rfl, if_neg hfmt]
  · intro k htf h1m
    rw [htf]
    dsimp only
    rw [if_neg h1m]

/-- Concrete instance of `unsupported_options_raise_after_reads` on
`c8State` with `tf = "2Min"` and with `out_format = "feather"`. -/
theorem unsupported_options_raise_after_reads_witness :
    c8State.symbologyId = some 7
    ∧ (selectTradeFiles c8State c8Input).isEmpty = false
    ∧ ((selectTradeFiles c8State c8Input).flatMap
        (fun f => tradeFileMinutes f 7)).isEmpty = false
    ∧ tfMinutes c8Input.tf = none
    ∧ deriveBars c8State c8Input 99
        = (Except.error DeriveErr.unsupportedTf, [Ev.readTrades 0])
    ∧ deriveBars c8State c8InputFmt 99
        = (Except.error DeriveErr.unsupportedOutputFormat,
          [Ev.readTrades 0]) := by
  have hA := (unsupported_options_raise_after_reads c8State c8Input 99 7
    rfl rfl rfl (Or.inl ⟨rfl, rfl⟩)).1 rfl
  have hB := (unsupported_options_raise_after_reads c8State c8InputFmt 99 7
    rfl rfl rfl (Or.inl ⟨rfl, rfl⟩)).2.1 rfl (by decide)
  exact ⟨rfl, rfl, rfl, rfl, hA, hB⟩

/-- Counterexample companion for claim C9: when the stub bars file already
exists and `force = false`, the stub branch does NOT rewrite it — it keeps
the old content and hashes it into the manifest — while the missing TBBO
stub is written fresh and the manifest is always rewritten. -/
theorem stub_bars_file_not_rewritten_cex :
    deriveBars c9State c9Input 99
      = (Except.ok (stubManifest c9Input 99 (FileData.other 3)
          (stubTbboData "AAPL" 2023)),
        [Ev.writeFile "tbbo_1m.parquet" (stubTbboData "AAPL" 2023),
         Ev.writeManifestFile (stubManifest c9Input 99 (FileData.other 3)
           (stubTbboData "AAPL" 2023))])
    ∧ (∀ d, Ev.writeFile "bars_1m.parquet" d
        ∉ (deriveBars c9State c9Input 99).2)
    ∧ (stubManifest c9Input 99 (FileData.other 3)
        (stubTbboData "AAPL" 2023)).outputHashes
      = [("bars_1m.parquet", FileData.other 3),
         ("tbbo_1m.parquet", stubTbboData "AAPL" 2023)] := by
  refine ⟨rfl, ?_, rfl⟩
  intro d h
  rw [show (deriveBars c9State c9Input 99).2
      = [Ev.writeFile "tbbo_1m.parquet" (stubTbboData "AAPL" 2023),
         Ev.writeManifestFile (stubManifest c9Input 99 (FileData.other 3)
           (stubTbboData "AAPL" 2023))] from rfl] at h
  rcases List.mem_cons.mp h with h | h
  · injection h with h1 _
    exact absurd h1 (by decide)
  · rw [List.mem_singleton] at h
    cases h

/-- Claim C9, amended: when both raw tick directories are absent and the
legacy layout is incomplete, `derive_bars` succeeds via the stub branch:
stub files are written only if forced or missing (an existing stub file's
content is reused), the manifest — empty `input_hashes`, interval fixed at
`"1m"` — is always rewritten, and the timeframe, output-format, fill_gaps
and rth_only options have no effect on the result. -/
theorem stub_branch_behavior
    (st : FsState) (inp : DeriveInput) (now : Nat)
    (hdir : ¬ (st.tradesDirExists = true ∧ st.tbboDirExists = true))
    (hold : st.oldTrades = none ∨ st.oldTbbo = none) :
    (deriveBars st inp now
      = (let bd := if inp.force ∨ st.stubBarsFile = none
            then stubBarsData inp.symbol inp.year
            else st.stubBarsFile.getD (FileData.other 0)
         let td := if inp.force ∨ st.stubTbboFile = none
            then stubTbboData inp.symbol inp.year
            else st.stubTbboFile.getD (FileData.other 0)
         (Except.ok (stubManifest inp now bd td),
           (if inp.force ∨ st.stubBarsFile = none
             then [Ev.writeFile "bars_1m.parquet" bd] else [])
           ++ (if inp.force ∨ st.stubTbboFile = none
             then [Ev.writeFile "tbbo_1m.parquet" td] else [])
           ++ [Ev.writeManifestFile (stubManifest inp now bd td)])))
    ∧ (∀ bd td, (stubManifest inp now bd td).inputHashes = []
        ∧ (stubManifest inp now bd td).interval = "1m")
    ∧ stubBarsData inp.symbol inp.year = FileData.stubBars
        [ { ts := minutesUTC (inp.year : Int) 1 1 0 0, o := 100, h := 101
            l := 199/2, c := 201/2, v := 1000, symbol := inp.symbol }
        , { ts := minutesUTC (inp.year : Int) 1 1 0 1, o := 101, h := 102
            l := 201/2, c := 203/2, v := 1200, symbol := inp.symbol } ]
    ∧ (∀ tf' fmt' fg' ro',
        deriveBars st { inp with
              tf := tf', outFormat := fmt',
              fillGaps := fg', rthOnly := ro' } now
          = deriveBars st inp now) := by
  have hstub : ∀ inp' : DeriveInput, deriveBars st inp' now
      = stubBranch st inp' now := by
    intro inp'
    unfold deriveBars
    rw [if_pos ⟨hdir, hold⟩]
  refine ⟨?_, fun bd td => ⟨rfl, rfl⟩, rfl, fun tf' fmt' fg' ro' => ?_⟩
  · rw [hstub inp]
    rfl
  · rw [hstub _, hstub inp]
    rfl

/-- Concrete instance of `stub_branch_behavior` on `c9State`/`c9Input`:
the stub manifest has empty `input_hashes` and interval `"1m"`, and
changing timeframe, format, fill_gaps and rth_only changes nothing. -/
theorem stub_branch_behavior_witness :
    (¬ (c9State.tradesDirExists = true ∧ c9State.tbboDirExists = true))
    ∧ (c9State.oldTrades = none ∨ c9State.oldTbbo = none)
    ∧ (stubManifest c9Input 99 (FileData.other 3)
        (stubTbboData "AAPL" 2023)).inputHashes = []
    ∧ (stubManifest c9Input 99 (FileData.other 3)
        (stubTbboData "AAPL" 2023)).interval = "1m"
    ∧ deriveBars c9State { c9Input with
          tf := "7Min", outFormat := "csv",
          fillGaps := true, rthOnly := true } 99
      = deriveBars c9State c9Input 99 := by
  have h := stub_branch_behavior c9State c9Input 99 (by decide)
    (Or.inl rfl)
  exact ⟨by decide, Or.inl rfl,
    (h.2.1 (FileData.other 3) (stubTbboData "AAPL" 2023)).1,
    (h.2.1 (FileData.other 3) (stubTbboData "AAPL" 2023)).2,
    h.2.2.2 "7Min" "csv" true true⟩

/-- Labeling and optional RTH filtering preserve the row invariant:
a positive-volume labeled row is bounded whenever every input row is
good. -/
theorem stage2_bounded (gf : List Bar) (rthOnly : Bool) (b : LBar)
    (hgf : ∀ x ∈ gf, barGood x)
    (hb : b ∈ (if rthOnly then (gf.map labelSession).filter (fun c => c.rth)
        else gf.map labelSession))
    (hv : 0 < b.v) : barBounded b.core := by
  have hb2 : b ∈ gf.map labelSession := by
    split_ifs at hb with h
    · exact (List.mem_filter.mp hb).1
    · exact hb
  obtain ⟨y, hy, hxy⟩ := List.mem_map.mp hb2
  rw [← hxy]
  rw [← hxy] at hv
  exact (hgf y hy).2 hv

/-- Every positive-volume row of the 1-minute pipeline satisfies the OHLC
invariant, whatever the mix of (possibly out-of-order) input files. -/
theorem pipeline_bounded (tradeFiles : List (List TradeTick))
    (quoteFiles : List (List QuoteTick)) (iid : Nat)
    (fromD toD : Option Nat) (fillGaps rthOnly : Bool) (b : LBar)
    (hb : b ∈ pipelineBars tradeFiles quoteFiles iid fromD toD fillGaps
      rthOnly)
    (hv : 0 < b.v) : barBounded b.core := by
  unfold pipelineBars at hb
  dsimp only at hb
  refine stage2_bounded _ rthOnly b ?_ hb hv
  intro x hx
  have hrecon : ∀ y ∈ reconcile
      (consolidateTrades
        (tradeFiles.flatMap (fun f => tradeFileMinutes f iid)))
      (consolidateQuotes
        (quoteFiles.flatMap (fun f => quoteFileMinutes f iid))),
      barGood y := by
    apply reconcile_good
    apply consolidateTrades_inv
    intro p hp
    obtain ⟨f, _, hpf⟩ := List.mem_flatMap.mp hp
    exact tradeFileMinutes_inv f iid p hpf
  split_ifs at hx with hcond
  · exact gapFill_good _ _ _ hrecon x hx
  · exact hrecon x hx

/-- No file-write event occurs among the read events. -/
theorem writeFile_notin_reads (n1 n2 : Nat) (nm : String) (d : FileData) :
    Ev.writeFile nm d ∉ ((List.range n1).map Ev.readTrades
      ++ (List.range n2).map Ev.readTbbo) := by
  intro h
  rcases List.mem_append.mp h with h | h <;>
  · obtain ⟨i, _, he⟩ := List.mem_map.mp h
    cases he

/-- Characterization of bar-file writes: any `barsRows` payload written by
`derive_bars` is the 1-minute pipeline output for the resolved instrument
(only the `tf = "1Min"` branch ever writes one; the stub branch writes
stub payloads and coarser timeframes crash before writing). -/
theorem barsRows_write_shape (st : FsState) (inp : DeriveInput) (now : Nat)
    (nm : String) (rows : List LBar)
    (hw : Ev.writeFile nm (FileData.barsRows rows)
        ∈ (deriveBars st inp now).2) :
    ∃ iid, st.symbologyId = some iid
      ∧ rows = pipelineBars (selectTradeFiles st inp)
          (selectTbboFiles st inp) iid (inp.fromDate.map dayNum)
          (inp.toDate.map dayNum) inp.fillGaps inp.rthOnly := by
  unfold deriveBars at hw
  by_cases hbr : (¬ (st.tradesDirExists = true ∧ st.tbboDirExists = true)
      ∧ (st.oldTrades = none ∨ st.oldTbbo = none))
  · rw [if_pos hbr] at hw
    exfalso
    unfold stubBranch at hw
    dsimp only at hw
    split_ifs at hw <;>
      simp [stubBarsData, stubTbboData] at hw
  · rw [if_neg hbr] at hw
    unfold deriveMain at hw
    by_cases hts : (selectTradeFiles st inp).isEmpty = true
    · rw [if_pos hts] at hw
      exact absurd hw (List.not_mem_nil _)
    · rw [if_neg hts] at hw
      cases hsym : st.symbologyId with
      | none =>
        rw [hsym] at hw
        dsimp only at hw
        exact absurd hw (List.not_mem_nil _)
      | some iid =>
        rw [hsym] at hw
        dsimp only at hw
        by_cases hparts : ((selectTradeFiles st inp).flatMap
            (fun f => tradeFileMinutes f iid)).isEmpty = true
        · rw [if_pos hparts] at hw
          obtain ⟨i, _, he⟩ := List.mem_map.mp hw
          cases he
        · rw [if_neg hparts] at hw
          cases htf : tfMinutes inp.tf with
          | none =>
            rw [htf] at hw
            dsimp only at hw
            exact absurd hw (writeFile_notin_reads _ _ _ _)
          | some k =>
            rw [htf] at hw
            dsimp only at hw
            by_cases h1m : inp.tf = "1Min"
            · rw [if_pos h1m] at hw
              by_cases hfmt : (inp.outFormat = "parquet"
                  ∨ inp.outFormat = "csv" ∨ inp.outFormat = "jsonl")
              · rw [if_pos hfmt] at hw
                refine ⟨iid, rfl, ?_⟩
                cases hfc : inp.force with
                | false =>
                  rw [hfc] at hw
                  cases hmf : st.manifestFile with
                  | none =>
                    rw [hmf] at hw
                    dsimp only at hw
                    rcases List.mem_append.mp hw with h | h
                    · exact absurd h (writeFile_notin_reads _ _ _ _)
                    · rcases List.mem_cons.mp h with h | h
                      · injection h with h1 h2
                        injection h2 with h3
                      · rw [List.mem_singleton] at h
                        cases h
                  | some mo =>
                    rw [hmf] at hw
                    cases mo with
                    | none =>
                      dsimp only at hw
                      rcases List.mem_append.mp hw with h | h
                      · exact absurd h (writeFile_notin_reads _ _ _ _)
                      · rcases List.mem_cons.mp h with h | h
                        · injection h with h1 h2
                          injection h2 with h3
                        · rw [List.mem_singleton] at h
                          cases h
                    | some old =>
                      dsimp only at hw
                      rcases List.mem_append.mp hw with h | h
                      · exact absurd h (writeFile_notin_reads _ _ _ _)
                      · rw [List.mem_singleton] at h
                        injection h with h1 h2
                        injection h2 with h3
                | true =>
                  rw [hfc] at hw
                  dsimp only at hw
                  rcases List.mem_append.mp hw with h | h
                  · exact absurd h (writeFile_notin_reads _ _ _ _)
                  · rcases List.mem_cons.mp h with h | h
                    · injection h with h1 h2
                      injection h2 with h3
                    · rw [List.mem_singleton] at h
                      cases h
              · rw [if_neg hfmt] at hw
                exact absurd hw (writeFile_notin_reads _ _ _ _)
            · rw [if_neg h1m] at hw
              exact absurd hw (writeFile_notin_reads _ _ _ _)

/-- Claim C7: every bar `derive_bars` ever writes (these are exactly the
1-minute pipeline rows — no coarser-timeframe bar is ever produced, the
resample crashing first) with positive volume satisfies the OHLC
invariant `low ≤ open ≤ high` and `low ≤ close ≤ high`, including minutes
consolidated from several, possibly out-of-order, input files by the
first/max/min/last/sum reducers. -/
theorem ohlc_invariant_written_bars (st : FsState) (inp : DeriveInput)
    (now : Nat) (nm : String) (rows : List LBar)
    (hw : Ev.writeFile nm (FileData.barsRows rows)
        ∈ (deriveBars st inp now).2) :
    ∀ b ∈ rows, 0 < b.v → barBounded b.core := by
  obtain ⟨iid, _, hrows⟩ := barsRows_write_shape st inp now nm rows hw
  subst hrows
  intro b hb hv
  exact pipeline_bounded _ _ iid _ _ _ _ b hb hv

/-- Concrete instance of `ohlc_invariant_written_bars`: a `1Min` call over
a file holding a size-5 trade and a zero-size trade. -/
theorem ohlc_invariant_written_bars_witness :
    Ev.writeFile "bars_1Min.parquet" (FileData.barsRows
        (pipelineBars [[c7Tick1, c7Tick2]] [] 7 none none false false))
      ∈ (deriveBars c7State c7Input 99).2
    ∧ ∀ b ∈ pipelineBars [[c7Tick1, c7Tick2]] [] 7 none none false false,
        0 < b.v → barBounded b.core := by
  have hmem : Ev.writeFile "bars_1Min.parquet" (FileData.barsRows
      (pipelineBars [[c7Tick1, c7Tick2]] [] 7 none none false false))
      ∈ (deriveBars c7State c7Input 99).2 := by
    rw [show (deriveBars c7State c7Input 99).2
        = [Ev.readTrades 0,
           Ev.writeFile "bars_1Min.parquet" (FileData.barsRows
             (pipelineBars [[c7Tick1, c7Tick2]] [] 7 none none false
               false)),
           Ev.writeManifestFile (mainManifest c7Input 99 "bars_1Min.parquet"
             (pipelineBars [[c7Tick1, c7Tick2]] [] 7 none none false false)
             1 0)] from rfl]
    exact List.mem_cons_of_mem _ (List.mem_cons_self _ _)
  exact ⟨hmem, ohlc_invariant_written_bars c7State c7Input 99 _ _ hmem⟩

/-- Counterexample to claim C10 as stated: an `rth_only=true` derivation
at `5Min` never builds any resampled bucket — the call dies in the
resample (`KeyError: 'bucket'`) right after reading the tick file, and
nothing at all is written. -/
theorem rth_resample_never_built_cex :
    deriveBars c10State c10Input5 99
      = (Except.error DeriveErr.keyErrorBucket, [Ev.readTrades 0])
    ∧ (∀ nm d, Ev.writeFile nm d ∉ (deriveBars c10State c10Input5 99).2)
    ∧ c10Input5.rthOnly = true := by
  refine ⟨rfl, ?_, rfl⟩
  intro nm d h
  rw [show (deriveBars c10State c10Input5 99).2 = [Ev.readTrades 0]
    from rfl] at h
  rw [List.mem_singleton] at h
  cases h

/-- Claim C10, amended: with `rth_only = true` on the tick path, every bar
of any written bar file has `session = "regular"` and `is_rth = true`,
because the RTH filter runs after session labeling — and a bar file is
only ever written at `tf = "1Min"`: no resampled bucket is ever built,
the coarser timeframes crashing in the resample before aggregating
anything. -/
theorem rth_only_written_bars_regular (st : FsState) (inp : DeriveInput)
    (now : Nat) (nm : String) (rows : List LBar)
    (hro : inp.rthOnly = true)
    (hw : Ev.writeFile nm (FileData.barsRows rows)
        ∈ (deriveBars st inp now).2) :
    ∀ b ∈ rows, b.session = "regular" ∧ b.rth = true := by
  obtain ⟨iid, _, hrows⟩ := barsRows_write_shape st inp now nm rows hw
  subst hrows
  intro b hb
  unfold pipelineBars at hb
  dsimp only at hb
  rw [hro] at hb
  rw [if_pos rfl] at hb
  exact filtered_labeled_regular _ b hb

/-- Concrete instance of `rth_only_written_bars_regular`: a `1Min`
`rth_only` call over one regular-hours tick. -/
theorem rth_only_written_bars_regular_witness :
    c10InputRth.rthOnly = true
    ∧ Ev.writeFile "bars_1Min.parquet" (FileData.barsRows
        (pipelineBars [[c10Tick]] [] 7 none none false true))
      ∈ (deriveBars c10State c10InputRth 99).2
    ∧ pipelineBars [[c10Tick]] [] 7 none none false true = [c10Row]
    ∧ ∀ b ∈ pipelineBars [[c10Tick]] [] 7 none none false true,
        b.session = "regular" ∧ b.rth = true := by
  have hs : sessionOf (minutesUTC 2024 1 5 14 30) = "regular" := by decide
  have hr : rthOf (minutesUTC 2024 1 5 14 30) = true := by decide
  have heq : pipelineBars [[c10Tick]] [] 7 none none false true
      = [c10Row] := by
    norm_num [pipelineBars, consolidateTrades, consolidateQuotes,
      tradeFileMinutes, quoteFileMinutes, reconcile, reconRow, sortedKeys,
      sortNat, insertNat, labelSession, tradeRow, quoteFillRow, headQ, lastQ,
      maxNeQ, minNeQ, c10Tick, c10Row, List.max?, List.min?, List.foldl,
      gapFill, hs, hr]
  have hmem : Ev.writeFile "bars_1Min.parquet" (FileData.barsRows
      (pipelineBars [[c10Tick]] [] 7 none none false true))
      ∈ (deriveBars c10State c10InputRth 99).2 := by
    rw [show (deriveBars c10State c10InputRth 99).2
        = [Ev.readTrades 0,
           Ev.writeFile "bars_1Min.parquet" (FileData.barsRows
             (pipelineBars [[c10Tick]] [] 7 none none false true)),
           Ev.writeManifestFile (mainManifest c10InputRth 99
             "bars_1Min.parquet"
             (pipelineBars [[c10Tick]] [] 7 none none false true) 1 0)]
      from rfl]
    exact List.mem_cons_of_mem _ (List.mem_cons_self _ _)
  exact ⟨rfl, hmem, heq,
    rth_only_written_bars_regular c10State c10InputRth 99 _ _ rfl hmem⟩

/-- Claim C4 (code bug): a `1Day` derivation never buckets anything at
all — with tick data present the call dies in `groupby("bucket")
.apply(_agg, include_groups=False)` (`KeyError: 'bucket'`) right after
the reads: no bucket (neither local-date- nor UTC-floor-keyed) is ever
emitted, no manifest is returned, and nothing is written. -/
theorem day_resample_crashes (st : FsState) (inp : DeriveInput) (now : Nat)
    (iid : Nat)
    (hsym : st.symbologyId = some iid)
    (hne : (selectTradeFiles st inp).isEmpty = false)
    (hdata : ((selectTradeFiles st inp).flatMap
        (fun f => tradeFileMinutes f iid)).isEmpty = false)
    (hdir : (st.tradesDirExists = true ∧ st.tbboDirExists = true)
        ∨ ¬ (st.oldTrades = none ∨ st.oldTbbo = none))
    (htf : inp.tf = "1Day") :
    deriveBars st inp now
      = (Except.error DeriveErr.keyErrorBucket,
        (List.range (selectTradeFiles st inp).length).map Ev.readTrades
        ++ (List.range (selectTbboFiles st inp).length).map Ev.readTbbo)
    ∧ (∀ m : Manifest, (deriveBars st inp now).1 ≠ Except.ok m)
    ∧ (∀ nm d, Ev.writeFile nm d ∉ (deriveBars st inp now).2) := by
  have hmain : deriveBars st inp now = deriveMain st inp now := by
    unfold deriveBars
    rw [if_neg]
    intro hcnd
    rcases hdir with hd | hd
    · exact hcnd.1 hd
    · exact hd hcnd.2
  have heq : deriveBars st inp now
      = (Except.error DeriveErr.keyErrorBucket,
        (List.range (selectTradeFiles st inp).length).map Ev.readTrades
        ++ (List.range (selectTbboFiles st inp).length).map Ev.readTbbo) := by
    rw [hmain]
    unfold deriveMain
    rw [if_neg (by simp [hne]), hsym]
    dsimp only
    rw [if_neg (by simp [hdata]), htf]
    rw [show tfMinutes "1Day" = some 1440 from rfl]
    dsimp only
    rw [if_neg (by decide)]
  refine ⟨heq, ?_, ?_⟩
  · intro m hx
    rw [heq] at hx
    exact Except.noConfusion hx
  · intro nm d h
    rw [heq] at h
    exact writeFile_notin_reads _ _ _ _ h

/-- Concrete instance of `day_resample_crashes` on one trades file. -/
theorem day_resample_crashes_witness :
    c8State.symbologyId = some 7
    ∧ (selectTradeFiles c8State c4Input).isEmpty = false
    ∧ ((selectTradeFiles c8State c4Input).flatMap
        (fun f => tradeFileMinutes f 7)).isEmpty = false
    ∧ c4Input.tf = "1Day"
    ∧ deriveBars c8State c4Input 99
        = (Except.error DeriveErr.keyErrorBucket, [Ev.readTrades 0]) := by
  have h := day_resample_crashes c8State c4Input 99 7 rfl rfl rfl
    (Or.inl ⟨rfl, rfl⟩) rfl
  exact ⟨rfl, rfl, rfl, rfl, h.1⟩

/-- Claim C6 (code bug): there is no resampled bucket whose volume or
trade count could be conserved — every call at `5Min`, `15Min`, `1Hour`
or `1Day` with tick data dies in the resample (`KeyError: 'bucket'`,
`include_groups=False` having removed the column `_agg` reads) after the
reads and before any aggregation, output write or manifest. -/
theorem coarse_timeframe_resample_crashes (st : FsState)
    (inp : DeriveInput) (now : Nat) (iid : Nat)
    (hsym : st.symbologyId = some iid)
    (hne : (selectTradeFiles st inp).isEmpty = false)
    (hdata : ((selectTradeFiles st inp).flatMap
        (fun f => tradeFileMinutes f iid)).isEmpty = false)
    (hdir : (st.tradesDirExists = true ∧ st.tbboDirExists = true)
        ∨ ¬ (st.oldTrades = none ∨ st.oldTbbo = none))
    (htf : inp.tf = "5Min" ∨ inp.tf = "15Min" ∨ inp.tf = "1Hour"
        ∨ inp.tf = "1Day") :
    deriveBars st inp now
      = (Except.error DeriveErr.keyErrorBucket,
        (List.range (selectTradeFiles st inp).length).map Ev.readTrades
        ++ (List.range (selectTbboFiles st inp).length).map Ev.readTbbo) := by
  have hmain : deriveBars st inp now = deriveMain st inp now := by
    unfold deriveBars
    rw [if_neg]
    intro hcnd
    rcases hdir with hd | hd
    · exact hcnd.1 hd
    · exact hd hcnd.2
  rw [hmain]
  unfold deriveMain
  rw [if_neg (by simp [hne]), hsym]
  dsimp only
  rw [if_neg (by simp [hdata])]
  rcases htf with h | h | h | h
  · rw [h, show tfMinutes "5Min" = some 5 from rfl]
    dsimp only
    rw [if_neg (by decide)]
  · rw [h, show tfMinutes "15Min" = some 15 from rfl]
    dsimp only
    rw [if_neg (by decide)]
  · rw [h, show tfMinutes "1Hour" = some 60 from rfl]
    dsimp only
    rw [if_neg (by decide)]
  · rw [h, show tfMinutes "1Day" = some 1440 from rfl]
    dsimp only
    rw [if_neg (by decide)]

/-- Concrete instance of `coarse_timeframe_resample_crashes` at `1Hour`. -/
theorem coarse_timeframe_resample_crashes_witness :
    c8State.symbologyId = some 7
    ∧ (selectTradeFiles c8State c6Input).isEmpty = false
    ∧ ((selectTradeFiles c8State c6Input).flatMap
        (fun f => tradeFileMinutes f 7)).isEmpty = false
    ∧ (c6Input.tf = "5Min" ∨ c6Input.tf = "15Min" ∨ c6Input.tf = "1Hour"
        ∨ c6Input.tf = "1Day")
    ∧ deriveBars c8State c6Input 99
        = (Except.error DeriveErr.keyErrorBucket, [Ev.readTrades 0]) := by
  have h := coarse_timeframe_resample_crashes c8State c6Input 99 7 rfl rfl
    rfl (Or.inl ⟨rfl, rfl⟩) (Or.inr (Or.inr (Or.inl rfl)))
  exact ⟨rfl, rfl, rfl, Or.inr (Or.inr (Or.inl rfl)), h⟩
